import Mathlib

/-!
Verification of the MarketMinds trading-assistant core against its
natural-language specification.

The development shallowly embeds the relevant TypeScript code:

* `src/components/StockHelper.tsx` — the `TradingAI` analysis engine
  (`calculateVolatility`, `detectTrend`, `findLevels`,
  `getInvestmentAdvice`, `generateResponse` with its intent cascade and
  ticker extraction) and the component-level `handleAction` command parser;
* `src/services/marketService.ts` — the quote fetch layer
  (`fetchYahooQuote`, `fetchYahooQuotesBatch`, `fetchMarketData`).

Modelling conventions:

* JavaScript numbers are modelled as `ℚ` (exact rationals).  All numeric
  literals appearing in the claims are small decimals for which JS double
  arithmetic is exact, except where noted in a definition's doc comment.
* JS regular expressions are compiled by hand, pattern by pattern, into
  string-scanning functions over `List Char` with the same leftmost-match,
  ordered-alternative, greedy-with-backtracking semantics.
* Network / random / clock effects are passed in explicitly as parameters
  (a fetch result, a tip index, the current year).
* Response texts that no claim inspects verbatim are represented by tagged
  constructors carrying the data that parametrises the template.
-/

namespace MarketMinds

/-! ## ASCII character helpers (JS `toLowerCase`/`toUpperCase`, `\d`, `\s`, `\w`, `[a-z]`) -/

/-- ASCII lower-casing of one character, as JS `toLowerCase` acts on A–Z. -/
def lowChar (c : Char) : Char :=
  if 'A' ≤ c ∧ c ≤ 'Z' then Char.ofNat (c.toNat + 32) else c

/-- ASCII upper-casing of one character, as JS `toUpperCase` acts on a–z. -/
def upChar (c : Char) : Char :=
  if 'a' ≤ c ∧ c ≤ 'z' then Char.ofNat (c.toNat - 32) else c

/-- Is the character an ASCII digit (regex `\d`)? -/
def isDigitCh (c : Char) : Bool := '0' ≤ c ∧ c ≤ '9'

/-- Is the character an ASCII lowercase letter (regex `[a-z]`)? -/
def isLowerCh (c : Char) : Bool := 'a' ≤ c ∧ c ≤ 'z'

/-- Is the character an ASCII uppercase letter (regex `[A-Z]`)? -/
def isUpperCh (c : Char) : Bool := 'A' ≤ c ∧ c ≤ 'Z'

/-- Is the character an ASCII letter? -/
def isAlphaCh (c : Char) : Bool := isLowerCh c || isUpperCh c

/-- Regex word character `\w` : letter, digit or underscore. -/
def isWordCh (c : Char) : Bool := isAlphaCh c || isDigitCh c || c = '_'

/-- Regex whitespace `\s` (the ASCII part, which is all the messages use). -/
def isSpaceCh (c : Char) : Bool :=
  c = ' ' || c = '\t' || c = '\n' || c = '\x0d' || c = '\x0c' || c = '\x0b'

/-- JS `String.prototype.toLowerCase` on a character list. -/
def lowStr (s : List Char) : List Char := s.map lowChar

/-- JS `String.prototype.toUpperCase` on a character list. -/
def upStr (s : List Char) : List Char := s.map upChar

/-- JS `String.prototype.trim`: strip whitespace from both ends. -/
def trimStr (s : List Char) : List Char :=
  ((s.dropWhile isSpaceCh).reverse.dropWhile isSpaceCh).reverse

/-- Does `lit` occur verbatim at the head of `cs`?  (Literal regex atom.) -/
def litAt : List Char → List Char → Bool
  | [], _ => true
  | _ :: _, [] => false
  | l :: ls, c :: cs => l = c && litAt ls cs

/-- JS `String.prototype.includes`: does `needle` occur anywhere in `hay`? -/
def hasSub (needle : List Char) : List Char → Bool
  | [] => litAt needle []
  | c :: cs => litAt needle (c :: cs) || hasSub needle cs

/-- Convenience wrapper over `hasSub` taking the needle as a string literal. -/
def hasSubS (needle : String) (hay : List Char) : Bool := hasSub needle.data hay

/-! ## Number parsing

JS `parseInt` / `parseFloat` on the tokens produced by the regexes `\d+` and
`\d+\.?\d*`.  Such a token is a digit run, optionally followed by `.` and a
second digit run, so its value is an exact nonnegative rational. -/

/-- Value of a digit run, most significant first (fold as `parseInt` does). -/
def digitsVal (ds : List Char) : ℕ :=
  ds.foldl (fun acc c => acc * 10 + (c.toNat - '0'.toNat)) 0

/-- Value of a `\d+\.?\d*` token under JS `parseFloat`: integer part plus
fractional digits scaled by a power of ten. -/
def decTokenVal (intPart fracPart : List Char) : ℚ :=
  (digitsVal intPart : ℚ) + (digitsVal fracPart : ℚ) / (10 : ℚ) ^ fracPart.length

/-! ## Data model

`HistoricalDataPoint` from `src/types` as consumed by the analysis engine:
a label plus a price.  Prices are modelled as exact rationals. -/

structure HistoricalDataPoint where
  date : String
  price : ℚ
deriving DecidableEq, Repr

/-- Quote snapshot (`MarketData` in `src/types`).  `price`, `change` and
`changePercent` are stored by the fetch layer as formatted decimal strings;
here each is modelled by the exact rational value of that string (for
`change` this is the value after `toFixed(2)` rounding, see `toFixed2`).
`changeRaw` additionally records the unrounded difference
`currentPrice - previousClose` the fetcher computed; the string fields of
the TS record are projections of these numbers. -/
structure MarketData where
  symbol : String
  name : String
  price : ℚ
  change : ℚ
  changeRaw : ℚ
  changePercent : ℚ
  isPositive : Bool
deriving DecidableEq, Repr

/-! ## Derived metrics (StockHelper.tsx lines 53–84)

These are the pure functions of a price-history sequence.  JS `sort((a, b)
=> a - b)` returns the ascending reordering of the array; it is modelled by
`List.insertionSort (· ≤ ·)`, which produces the same list (the sorted
permutation of a list of rationals is unique).  The JS index expression
`Math.floor(prices.length * 0.15)` equals `3 * n / 20` in exact arithmetic;
for every array length below 2^50 the double rounding of `n * 0.15` does not
cross an integer boundary, so natural-number division is a faithful model
(likewise `0.85` and `17 * n / 20`). -/

/-- Day-over-day returns `prices.slice(1).map((p, i) => (p - prices[i]) / prices[i])`. -/
def dayReturns (prices : List ℚ) : List ℚ :=
  (prices.tail.zip prices).map (fun pr => (pr.1 - pr.2) / pr.2)

/-- Mean of a list of rationals (`reduce((a, b) => a + b, 0) / length`);
division by zero yields zero in `ℚ`, matching the guarded call sites. -/
def listMean (l : List ℚ) : ℚ := l.sum / l.length

/-- Variance of the day-over-day returns as computed by `calculateVolatility`.
The source returns `Math.sqrt(variance) * 100`; the square root is
irrational, so the model exposes the variance (the claims under proof only
concern the guard and the frame behaviour, both unaffected by the final
monotone `sqrt`). -/
def calculateVolatilityVar (history : List HistoricalDataPoint) : ℚ :=
  if history.length < 2 then 0
  else
    let prices := history.map (·.price)
    let returns := dayReturns prices
    let mean := listMean returns
    listMean (returns.map (fun r => (r - mean) ^ 2))

/-- Percent delta between the mean of the first 3 and the mean of the last 3
prices (`detectTrend`'s `change` variable). -/
def trendChange (history : List HistoricalDataPoint) : ℚ :=
  let prices := history.map (·.price)
  let first := (prices.take 3).sum / 3
  let last := (prices.drop (prices.length - 3)).sum / 3
  ((last - first) / first) * 100

/-- Trend classification (`detectTrend`, StockHelper.tsx lines 63–74). -/
def detectTrend (history : List HistoricalDataPoint) : String :=
  if history.length < 5 then "insufficient data"
  else
    let change := trendChange history
    if change > 3 then "strong uptrend"
    else if change > 1 then "mild uptrend"
    else if change < -3 then "strong downtrend"
    else if change < -1 then "mild downtrend"
    else "sideways consolidation"

/-- Support/resistance levels (`findLevels`, StockHelper.tsx lines 77–84):
the sorted price list indexed at `Math.floor(length * 0.15)` and
`Math.floor(length * 0.85)`. -/
def findLevels (history : List HistoricalDataPoint) : ℚ × ℚ :=
  if history.length < 2 then (0, 0)
  else
    let prices := (history.map (·.price)).insertionSort (· ≤ ·)
    (prices.getD (prices.length * 3 / 20) 0, prices.getD (prices.length * 17 / 20) 0)

/-! ## Spec-side percentile (for claim C4)

The specification describes `findLevels` as "the 15th and 85th percentile of
sorted price history (nearest-rank, no interpolation)".  The nearest-rank
percentile of a sorted n-element list is its `⌈p·n/100⌉`-th smallest element
(1-based), i.e. the 0-based index `⌈p·n/100⌉ - 1`. -/

/-- Nearest-rank percentile of a price history, following the spec's words:
sort the prices and take the `⌈p·n/100⌉`-th smallest (no interpolation). -/
def nearestRankPercentile (p : ℕ) (history : List HistoricalDataPoint) : ℚ :=
  let prices := (history.map (·.price)).insertionSort (· ≤ ·)
  prices.getD ((p * prices.length + 99) / 100 - 1) 0

/-! ## Heap model for the frame claim (C10)

`calculateVolatility`, `detectTrend` and `findLevels` receive a JS array.
To express that they leave the caller's array untouched we re-run them over
an explicit heap of arrays: `history.map(...)` allocates a fresh cell, JS
`Array.prototype.sort` mutates the cell it is called on (here always the
freshly mapped copy), and every other step only reads. -/

/-- Heap cell: an array of history points or an array of numbers. -/
inductive Cell where
  | pts (l : List HistoricalDataPoint)
  | nums (l : List ℚ)
deriving DecidableEq, Repr

/-- Read a history-point array out of the heap. -/
def readPts (store : List Cell) (r : ℕ) : List HistoricalDataPoint :=
  match store.getD r (Cell.pts []) with
  | Cell.pts l => l
  | Cell.nums _ => []

/-- Read a number array out of the heap. -/
def readNums (store : List Cell) (r : ℕ) : List ℚ :=
  match store.getD r (Cell.nums []) with
  | Cell.pts _ => []
  | Cell.nums l => l

/-- Heap-level `calculateVolatility`: `history.map(h => h.price)` allocates a
fresh number array; all later steps are reads of that copy. -/
def calculateVolatilityProc (store : List Cell) (href : ℕ) : ℚ × List Cell :=
  let history := readPts store href
  if history.length < 2 then (0, store)
  else
    let pricesRef := store.length
    let store₁ := store ++ [Cell.nums (history.map (·.price))]
    let prices := readNums store₁ pricesRef
    let returns := dayReturns prices
    let mean := listMean returns
    (listMean (returns.map (fun r => (r - mean) ^ 2)), store₁)

/-- Heap-level `detectTrend`: the mapped copy is allocated, then only read. -/
def detectTrendProc (store : List Cell) (href : ℕ) : String × List Cell :=
  let history := readPts store href
  if history.length < 5 then ("insufficient data", store)
  else
    let pricesRef := store.length
    let store₁ := store ++ [Cell.nums (history.map (·.price))]
    let prices := readNums store₁ pricesRef
    let first := (prices.take 3).sum / 3
    let last := (prices.drop (prices.length - 3)).sum / 3
    let change := ((last - first) / first) * 100
    (if change > 3 then "strong uptrend"
     else if change > 1 then "mild uptrend"
     else if change < -3 then "strong downtrend"
     else if change < -1 then "mild downtrend"
     else "sideways consolidation", store₁)

/-- Heap-level `findLevels`: `history.map(h => h.price)` allocates a copy and
`.sort((a, b) => a - b)` mutates that copy in place — not the caller's
array. -/
def findLevelsProc (store : List Cell) (href : ℕ) : (ℚ × ℚ) × List Cell :=
  let history := readPts store href
  if history.length < 2 then ((0, 0), store)
  else
    let pricesRef := store.length
    let store₁ := store ++ [Cell.nums (history.map (·.price))]
    let store₂ := store₁.set pricesRef
      (Cell.nums ((readNums store₁ pricesRef).insertionSort (· ≤ ·)))
    let prices := readNums store₂ pricesRef
    ((prices.getD (prices.length * 3 / 20) 0,
      prices.getD (prices.length * 17 / 20) 0), store₂)

/-- Reading an existing cell is unaffected by allocating a fresh cell at the
end of the heap. -/
theorem readPts_append (store : List Cell) (c : Cell) (r : ℕ) (hr : r < store.length) :
    readPts (store ++ [c]) r = readPts store r := by
  unfold readPts
  rw [List.getD_eq_getElem?_getD, List.getD_eq_getElem?_getD,
    List.getElem?_append_left hr]

/-- Reading an existing cell is unaffected by writing to a fresh cell past
the end of the original heap. -/
theorem readPts_set_fresh (store : List Cell) (c c' : Cell) (r : ℕ)
    (hr : r < store.length) :
    readPts ((store ++ [c]).set store.length c') r = readPts store r := by
  unfold readPts
  rw [List.getD_eq_getElem?_getD, List.getD_eq_getElem?_getD,
    List.getElem?_set_ne (by omega), List.getElem?_append_left hr]

/-- The freshly allocated cell holds exactly the mapped copy. -/
theorem readNums_alloc (store : List Cell) (v : List ℚ) :
    readNums (store ++ [Cell.nums v]) store.length = v := by
  unfold readNums
  rw [List.getD_eq_getElem?_getD, List.getElem?_append_right (le_refl _)]
  simp

/-- Writing the fresh cell and reading it back yields the written value. -/
theorem readNums_set_fresh (store : List Cell) (c : Cell) (v : List ℚ) :
    readNums ((store ++ [c]).set store.length (Cell.nums v)) store.length = v := by
  unfold readNums
  rw [List.getD_eq_getElem?_getD, List.getElem?_set_self]
  · simp
  · simp

/-! ## Claims C4, C5, C10 -/

/-- A 20-point history with distinct prices 1..20, exercising the case where
`0.15 · n` and `0.85 · n` are integers. -/
def histTwenty : List HistoricalDataPoint :=
  (List.range 20).map (fun i => ⟨"", (i : ℚ) + 1⟩)

/-- Claim C4 counterexample: on a 20-point history with prices 1..20,
`findLevels` returns the 4th and 18th smallest prices (0-based floor indices
`⌊0.15·20⌋ = 3` and `⌊0.85·20⌋ = 17`), while the nearest-rank 15th/85th
percentile of the spec is the 3rd and 17th smallest (ranks `⌈3⌉` and
`⌈17⌉`), so the claimed equality fails. -/
theorem claimC4_counterexample :
    findLevels histTwenty = (4, 18) ∧
    (nearestRankPercentile 15 histTwenty, nearestRankPercentile 85 histTwenty) = (3, 17) ∧
    findLevels histTwenty ≠
      (nearestRankPercentile 15 histTwenty, nearestRankPercentile 85 histTwenty) := by
  refine ⟨by with_unfolding_all decide, by with_unfolding_all decide,
    by with_unfolding_all decide⟩

/-- Claim C4 (amended): for a history of at least 2 points, `findLevels`
returns the elements at the 0-based indices `⌊0.15·n⌋` and `⌊0.85·n⌋` of the
sorted price list — characterised here as any sorted rearrangement of the
prices — with no interpolation (this coincides with the nearest-rank
15th/85th percentile except when `0.15·n` resp. `0.85·n` is an integer,
where the code takes the next higher rank); for fewer than 2 points it
returns support 0 and resistance 0. -/
theorem claimC4_findLevels (h : List HistoricalDataPoint) (l : List ℚ)
    (hp : l.Perm (h.map (·.price))) (hs : l.Sorted (· ≤ ·)) :
    findLevels h = if h.length < 2 then (0, 0)
      else (l.getD (h.length * 3 / 20) 0, l.getD (h.length * 17 / 20) 0) := by
  have hl : l = (h.map (·.price)).insertionSort (· ≤ ·) :=
    List.eq_of_perm_of_sorted (hp.trans (List.perm_insertionSort _ _).symm) hs
      (List.sorted_insertionSort _ _)
  have hlen : ((h.map (·.price)).insertionSort (· ≤ ·)).length = h.length := by
    rw [(List.perm_insertionSort _ _).length_eq, List.length_map]
  subst hl
  by_cases hc : h.length < 2
  · rw [if_pos hc]
    unfold findLevels
    rw [if_pos hc]
  · rw [if_neg hc]
    simp only [findLevels, if_neg hc, hlen]

/-- Two-point history used to instantiate `claimC4_findLevels`. -/
def levelsHW : List HistoricalDataPoint := [⟨"", 20⟩, ⟨"", 10⟩]

/-- Sorted rearrangement of the prices of `levelsHW`. -/
def levelsLW : List ℚ := [10, 20]

/-- Witness for `claimC4_findLevels` at a concrete two-point history. -/
theorem claimC4_findLevels_witness :
    findLevels levelsHW = if levelsHW.length < 2 then (0, 0)
      else (levelsLW.getD (levelsHW.length * 3 / 20) 0,
        levelsLW.getD (levelsHW.length * 17 / 20) 0) :=
  claimC4_findLevels levelsHW levelsLW (by with_unfolding_all decide)
    (by with_unfolding_all decide)

/-- Claim C5: with at least 5 points, `detectTrend` compares the mean of the
first 3 prices with the mean of the last 3 and classifies the percent delta
by the thresholds +3 / +1 / −3 / −1; with fewer than 5 points it returns
"insufficient data".  Each label is returned exactly on its threshold
band. -/
theorem claimC5_detectTrend (h : List HistoricalDataPoint) :
    (h.length < 5 → detectTrend h = "insufficient data") ∧
    (5 ≤ h.length →
      ((detectTrend h = "strong uptrend" ↔ 3 < trendChange h) ∧
       (detectTrend h = "mild uptrend" ↔ 1 < trendChange h ∧ trendChange h ≤ 3) ∧
       (detectTrend h = "strong downtrend" ↔ trendChange h < -3) ∧
       (detectTrend h = "mild downtrend" ↔ -3 ≤ trendChange h ∧ trendChange h < -1) ∧
       (detectTrend h = "sideways consolidation" ↔
         -1 ≤ trendChange h ∧ trendChange h ≤ 1))) := by
  constructor
  · intro hl
    unfold detectTrend
    rw [if_pos hl]
  · intro hl
    have hl' : ¬ h.length < 5 := by omega
    simp only [detectTrend, if_neg hl']
    split_ifs with h1 h2 h3 h4 <;>
      refine ⟨⟨fun hx => ?_, fun hc => ?_⟩, ⟨fun hx => ?_, fun hc => ?_⟩,
        ⟨fun hx => ?_, fun hc => ?_⟩, ⟨fun hx => ?_, fun hc => ?_⟩,
        ⟨fun hx => ?_, fun hc => ?_⟩⟩ <;>
      first
        | rfl
        | exact absurd hx (by decide)
        | linarith
        | (constructor <;> linarith)

/-- Five-point history with a strong uptrend used to instantiate
`claimC5_detectTrend`. -/
def trendHW : List HistoricalDataPoint :=
  [⟨"", 100⟩, ⟨"", 100⟩, ⟨"", 100⟩, ⟨"", 110⟩, ⟨"", 110⟩]

/-- Witness for `claimC5_detectTrend`: a concrete 5-point history whose delta
exceeds +3 percent is classified as a strong uptrend. -/
theorem claimC5_detectTrend_witness : detectTrend trendHW = "strong uptrend" :=
  ((claimC5_detectTrend trendHW).2 (by decide)).1.mpr (by with_unfolding_all decide)

/-- Claim C10: over the explicit heap model, `calculateVolatility`,
`detectTrend` and `findLevels` leave the caller's history array unchanged —
each reads the prices through a freshly mapped copy, and `findLevels` sorts
that copy, not the caller's array — and each computes the same value as its
pure counterpart applied to the history the caller passed in. -/
theorem claimC10_metrics_frame (store : List Cell) (href : ℕ)
    (hr : href < store.length) :
    (readPts (calculateVolatilityProc store href).2 href = readPts store href ∧
      (calculateVolatilityProc store href).1 = calculateVolatilityVar (readPts store href)) ∧
    (readPts (detectTrendProc store href).2 href = readPts store href ∧
      (detectTrendProc store href).1 = detectTrend (readPts store href)) ∧
    (readPts (findLevelsProc store href).2 href = readPts store href ∧
      (findLevelsProc store href).1 = findLevels (readPts store href)) := by
  refine ⟨⟨?_, ?_⟩, ⟨?_, ?_⟩, ⟨?_, ?_⟩⟩
  · by_cases hg : (readPts store href).length < 2
    · simp only [calculateVolatilityProc, if_pos hg]
    · simp only [calculateVolatilityProc, if_neg hg]
      exact readPts_append store _ href hr
  · by_cases hg : (readPts store href).length < 2
    · simp only [calculateVolatilityProc, if_pos hg, calculateVolatilityVar]
    · simp only [calculateVolatilityProc, if_neg hg, readNums_alloc,
        calculateVolatilityVar]
  · by_cases hg : (readPts store href).length < 5
    · simp only [detectTrendProc, if_pos hg]
    · simp only [detectTrendProc, if_neg hg]
      exact readPts_append store _ href hr
  · by_cases hg : (readPts store href).length < 5
    · simp only [detectTrendProc, if_pos hg, detectTrend]
    · simp only [detectTrendProc, if_neg hg, readNums_alloc, detectTrend,
        trendChange]
  · by_cases hg : (readPts store href).length < 2
    · simp only [findLevelsProc, if_pos hg]
    · simp only [findLevelsProc, if_neg hg, readNums_alloc]
      exact readPts_set_fresh store _ _ href hr
  · by_cases hg : (readPts store href).length < 2
    · simp only [findLevelsProc, if_pos hg, findLevels]
    · simp only [findLevelsProc, if_neg hg, readNums_alloc, readNums_set_fresh,
        findLevels]

/-- One-cell heap used to instantiate `claimC10_metrics_frame`. -/
def storeW : List Cell := [Cell.pts trendHW]

/-- Witness for `claimC10_metrics_frame` on a concrete one-cell heap. -/
theorem claimC10_metrics_frame_witness :
    readPts (findLevelsProc storeW 0).2 0 = readPts storeW 0 ∧
    (findLevelsProc storeW 0).1 = findLevels (readPts storeW 0) :=
  (claimC10_metrics_frame storeW 0 (by decide)).2.2

/-! ## Quote fetch layer (`src/services/marketService.ts`)

The network is a parameter: `batch` stands for the Yahoo v7 batch endpoint
(`fetchYahooQuotesBatch`'s parsed response handling), `single` for the v8
single-quote fallback (`fetchYahooQuote`), and the quote cache for
`priceCache` at the time of the call.  JS `toFixed` is modelled by the value
of the string it produces (decimal rounding, ties away from zero). -/

/-- JS `String.prototype.toUpperCase` as a `String` function. -/
def upperS (s : String) : String := ⟨upStr s.data⟩

/-- JS `String.prototype.toLowerCase` as a `String` function. -/
def lowerS (s : String) : String := ⟨lowStr s.data⟩

/-- Value of the string produced by JS `x.toFixed(d)`: round to `d` decimal
digits, ties away from zero (negative inputs are formatted as `-` plus the
formatted absolute value). -/
def toFixedVal (d : ℕ) (x : ℚ) : ℚ :=
  if 0 ≤ x then (⌊x * 10 ^ d + 1 / 2⌋ : ℚ) / 10 ^ d
  else -((⌊(-x) * 10 ^ d + 1 / 2⌋ : ℚ) / 10 ^ d)

/-- JS `a || b` for an optional number `a`: `undefined`, `NaN` and `0` fall
through to `b`. -/
def jsNumOr (a : Option ℚ) (b : Option ℚ) : Option ℚ :=
  match a with
  | some v => if v = 0 then b else some v
  | none => b

/-- JS `a || b` for an optional string `a`: `undefined` and `""` fall
through to `b`. -/
def jsStrOr (a : Option String) (b : String) : String :=
  match a with
  | some s => if s = "" then b else s
  | none => b

/-- Raw fields read off one entry of the Yahoo batch response
(`data.quoteResponse.result`). -/
structure YahooQuoteRaw where
  symbol : Option String
  shortName : Option String
  longName : Option String
  regularMarketPrice : Option ℚ
  regularMarketPreviousClose : Option ℚ
  previousClose : Option ℚ
deriving DecidableEq, Repr

/-- Raw fields read off the Yahoo chart response's `meta` object by the
single-quote path. -/
structure YahooMeta where
  metaSymbol : Option String
  shortName : Option String
  regularMarketPrice : Option ℚ
  chartPreviousClose : Option ℚ
  previousClose : Option ℚ
deriving DecidableEq, Repr

/-- Quote construction of `fetchYahooQuote` (marketService.ts lines 92–106)
from the chart `meta` object.  `none` stands for the `null` returned through
the surrounding `catch` when the response is unusable (in the source a
response with both price fields missing would instead produce an all-`NaN`
quote; no claim concerns that degenerate object). -/
def fetchYahooQuoteModel (symbol : String) (meta : YahooMeta) : Option MarketData :=
  match jsNumOr meta.regularMarketPrice meta.previousClose,
      jsNumOr meta.chartPreviousClose meta.previousClose with
  | some currentPrice, some previousClose =>
    let change := currentPrice - previousClose
    let changePercent := change / previousClose * 100
    let isPositive := decide (0 ≤ change)
    some
      { symbol := upperS symbol
        name := jsStrOr meta.shortName (jsStrOr meta.metaSymbol symbol)
        price := toFixedVal (if currentPrice < 10 then 4 else 2) currentPrice
        change := toFixedVal 2 change
        changeRaw := change
        changePercent := toFixedVal 2 changePercent
        isPositive := isPositive }
  | _, _ => none

/-- Quote construction of `fetchYahooQuotesBatch` for one entry of the batch
response (marketService.ts lines 138–170); `none` models the loop's
`continue` guards. -/
def fetchYahooBatchItem (yahooToDisplay : String → Option String)
    (q : YahooQuoteRaw) : Option MarketData :=
  match q.symbol with
  | none => none
  | some ySym =>
    let displaySymbol := (yahooToDisplay ySym).getD (upperS ySym)
    match q.regularMarketPrice <|> q.previousClose with
    | none => none
    | some currentPrice =>
        let previousCloseRaw := (q.regularMarketPreviousClose <|> q.previousClose).getD currentPrice
        let previousClose := if previousCloseRaw = 0 then currentPrice else previousCloseRaw
        if previousClose = 0 then none
        else
          let change := currentPrice - previousClose
          let changePercent := change / previousClose * 100
          let isPositive := decide (0 ≤ change)
          some
            { symbol := displaySymbol
              name := jsStrOr q.shortName (jsStrOr q.longName displaySymbol)
              price := toFixedVal (if currentPrice < 10 then 4 else 2) currentPrice
              change := toFixedVal 2 change
              changeRaw := change
              changePercent := toFixedVal 2 changePercent
              isPositive := isPositive }

/-- JS `Array.from(new Set(xs))`: deduplicate keeping first occurrences. -/
def dedupFirst (l : List String) : List String :=
  l.foldl (fun acc x => if acc.contains x then acc else acc ++ [x]) []

/-- Cache lifetime (`CACHE_TTL = 10000` ms). -/
def CACHE_TTL : ℤ := 10000

/-- Is the cache entry for `s` fresh at time `now`
(`now - cached.timestamp < CACHE_TTL`)? -/
def cacheFresh (cache : String → Option (MarketData × ℤ)) (now : ℤ) (s : String) : Bool :=
  match cache s with
  | some dts => decide (now - dts.2 < CACHE_TTL)
  | none => false

/-- The pool of quotes `fetchMarketData` accumulates in `results` before the
final reordering: cache hits in dedup order, then the batch response, then
the single-quote fallbacks for symbols the batch left unresolved.  (The
fallback pushes resolve in `Promise.all` completion order in the source;
any order yields the same final reordered output, and the model fixes the
`missing` order.) -/
def collectedQuotes (cache : String → Option (MarketData × ℤ)) (now : ℤ)
    (batch : List String → List MarketData) (single : String → Option MarketData)
    (symbols : List String) : List MarketData :=
  let uniqueSymbols := dedupFirst (symbols.map upperS)
  let results₀ := uniqueSymbols.filterMap
    (fun s => if cacheFresh cache now s then (cache s).map (·.1) else none)
  let symbolsToFetch := uniqueSymbols.filter (fun s => !cacheFresh cache now s)
  if symbolsToFetch.isEmpty then results₀
  else
    let results₁ := results₀ ++ batch symbolsToFetch
    let missing := symbolsToFetch.filter
      (fun s => !(results₁.any (fun r => r.symbol == s)))
    results₁ ++ missing.filterMap single

/-- The exported `fetchMarketData` (marketService.ts lines 242–285): gather
quotes from cache, batch and fallback, then reorder them to match the
deduplicated upper-cased input
(`uniqueSymbols.map(sym => results.find(...)).filter(...)`). -/
def fetchMarketData (cache : String → Option (MarketData × ℤ)) (now : ℤ)
    (batch : List String → List MarketData) (single : String → Option MarketData)
    (symbols : List String) : List MarketData :=
  (dedupFirst (symbols.map upperS)).filterMap
    (fun s => (collectedQuotes cache now batch single symbols).find?
      (fun r => r.symbol == s))

/-- Mapping a `filterMap` whose hits are tagged with their source element
recovers the filtered source list. -/
theorem map_filterMap_eq_filter {α : Type} (l : List α) (t : α → Option MarketData)
    (g : MarketData → α) (ht : ∀ s r, t s = some r → g r = s) :
    (l.filterMap t).map g = l.filter (fun s => (t s).isSome) := by
  induction l with
  | nil => rfl
  | cons x xs ih =>
    by_cases hx : (t x).isSome
    · obtain ⟨r, hr⟩ := Option.isSome_iff_exists.mp hx
      simp only [List.filterMap_cons, hr, List.map_cons, List.filter_cons, hx,
        if_pos trivial, ih, ht x r hr]
      simp
    · simp only [List.filterMap_cons, Option.not_isSome_iff_eq_none.mp hx,
        List.filter_cons, hx, ih]
      simp

/-- Quotes are reordered by symbol lookup, so a found quote carries the
symbol it was looked up under. -/
theorem find?_symbol_eq (res : List MarketData) (s : String) (r : MarketData)
    (hr : res.find? (fun q => q.symbol == s) = some r) : r.symbol = s := by
  have := List.find?_some hr
  simpa using this

/-- Claim C7: `fetchMarketData` returns its quotes in the order of the
deduplicated, upper-cased input list; a symbol for which no quote was
obtained (from cache, batch or fallback) is omitted, and every returned
entry is one of the quotes actually obtained — no null or placeholder
entries. -/
theorem claimC7_fetchMarketData_order (cache : String → Option (MarketData × ℤ))
    (now : ℤ) (batch : List String → List MarketData)
    (single : String → Option MarketData) (symbols : List String) :
    (fetchMarketData cache now batch single symbols).map (·.symbol) =
      (dedupFirst (symbols.map upperS)).filter
        (fun s => ((collectedQuotes cache now batch single symbols).find?
          (fun r => r.symbol == s)).isSome) ∧
    ∀ q ∈ fetchMarketData cache now batch single symbols,
      q ∈ collectedQuotes cache now batch single symbols := by
  constructor
  · exact map_filterMap_eq_filter _ _ _
      (fun s r hr => find?_symbol_eq _ s r hr)
  · intro q hq
    rw [fetchMarketData, List.mem_filterMap] at hq
    obtain ⟨s, _, hfind⟩ := hq
    exact List.mem_of_find?_eq_some hfind

/-- Concrete quote for the C7 witness. -/
def quoteAW : MarketData :=
  { symbol := "AAPL", name := "Apple", price := 100, change := 1, changeRaw := 1,
    changePercent := 1, isPositive := true }

/-- Witness for `claimC7_fetchMarketData_order`: with an empty cache, a batch
oracle answering only AAPL and no fallback, the input `["aapl", "AAPL"]`
deduplicates to `["AAPL"]` and the returned quote is the batch quote. -/
theorem claimC7_fetchMarketData_order_witness :
    quoteAW ∈ collectedQuotes (fun _ => none) 0 (fun _ => [quoteAW]) (fun _ => none)
      ["aapl", "AAPL"] :=
  (claimC7_fetchMarketData_order (fun _ => none) 0 (fun _ => [quoteAW]) (fun _ => none)
    ["aapl", "AAPL"]).2 quoteAW (by with_unfolding_all decide)

/-- Rounding to a fixed number of decimals preserves nonnegativity. -/
theorem toFixedVal_nonneg (d : ℕ) (x : ℚ) (hx : 0 ≤ x) : 0 ≤ toFixedVal d x := by
  unfold toFixedVal
  rw [if_pos hx]
  have h0 : (0 : ℤ) ≤ ⌊x * 10 ^ d + 1 / 2⌋ := Int.le_floor.mpr (by positivity)
  have h0' : (0 : ℚ) ≤ (⌊x * 10 ^ d + 1 / 2⌋ : ℚ) := by exact_mod_cast h0
  positivity

/-- Rounding to a fixed number of decimals maps negative numbers to
nonpositive numbers (a tiny negative rounds to zero). -/
theorem toFixedVal_nonpos (d : ℕ) (x : ℚ) (hx : x < 0) : toFixedVal d x ≤ 0 := by
  unfold toFixedVal
  rw [if_neg (not_le.mpr hx)]
  have hxp : (0 : ℚ) ≤ -x := by linarith
  have hp : (0 : ℚ) ≤ (-x) * 10 ^ d + 1 / 2 := by positivity
  have h0 : (0 : ℤ) ≤ ⌊(-x) * 10 ^ d + 1 / 2⌋ := Int.le_floor.mpr (by push_cast; linarith)
  have h0' : (0 : ℚ) ≤ (⌊(-x) * 10 ^ d + 1 / 2⌋ : ℚ) := by exact_mod_cast h0
  have hd : (0 : ℚ) ≤ (⌊(-x) * 10 ^ d + 1 / 2⌋ : ℚ) / 10 ^ d := by positivity
  linarith

/-- Batch-response entry with an exact change of −0.004: the current price is
100 and the previous close 100.004. -/
def quoteTinyDrop : YahooQuoteRaw :=
  { symbol := some "AAPL", shortName := some "Apple", longName := none,
    regularMarketPrice := some 100,
    regularMarketPreviousClose := some (100 + 4 / 1000), previousClose := none }

/-- Claim C8 counterexample: for a batch entry whose price slipped from
100.004 to 100, the produced quote has `isPositive = false` while its
stored change field — the value of the formatted string `"-0.00"` — is 0,
hence `≥ 0`; the claimed equivalence between `isPositive` and
`absolute change ≥ 0` fails on the quote as produced. -/
theorem claimC8_counterexample :
    (fetchYahooBatchItem (fun _ => none) quoteTinyDrop).map
      (fun q => (q.isPositive, q.change, decide (0 ≤ q.change))) =
      some (false, 0, true) := by
  with_unfolding_all decide

/-- Claim C8 (amended): every quote either fetch path produces has
`isPositive` equal to (unrounded change ≥ 0); consequently `isPositive`
agrees in sign with the stored rounded change field (`isPositive = true`
forces `change ≥ 0`, `isPositive = false` forces `change ≤ 0`), the only
disagreement with the claim being an exact change in (−0.005, 0), which is
stored as −0.00, i.e. 0. -/
theorem claimC8_isPositive :
    (∀ (symbol : String) (meta : YahooMeta) (q : MarketData),
        fetchYahooQuoteModel symbol meta = some q →
        q.isPositive = decide (0 ≤ q.changeRaw) ∧
        (q.isPositive = true → 0 ≤ q.change) ∧
        (q.isPositive = false → q.change ≤ 0)) ∧
    (∀ (yahooToDisplay : String → Option String) (raw : YahooQuoteRaw)
        (q : MarketData),
        fetchYahooBatchItem yahooToDisplay raw = some q →
        q.isPositive = decide (0 ≤ q.changeRaw) ∧
        (q.isPositive = true → 0 ≤ q.change) ∧
        (q.isPositive = false → q.change ≤ 0)) := by
  have final : ∀ (q : MarketData) (change : ℚ),
      q.isPositive = decide (0 ≤ change) → q.changeRaw = change →
      q.change = toFixedVal 2 change →
      q.isPositive = decide (0 ≤ q.changeRaw) ∧
      (q.isPositive = true → 0 ≤ q.change) ∧
      (q.isPositive = false → q.change ≤ 0) := by
    intro q change h1 h2 h3
    refine ⟨by rw [h1, h2], fun hp => ?_, fun hp => ?_⟩
    · rw [h1] at hp
      rw [h3]
      exact toFixedVal_nonneg 2 change (of_decide_eq_true hp)
    · rw [h1] at hp
      rw [h3]
      exact toFixedVal_nonpos 2 change (not_le.mp (of_decide_eq_false hp))
  constructor
  · intro symbol meta q hq
    unfold fetchYahooQuoteModel at hq
    split at hq
    · simp only [Option.some_inj] at hq
      subst hq
      exact final _ _ rfl rfl rfl
    · exact Option.noConfusion hq
  · intro yahooToDisplay raw q hq
    unfold fetchYahooBatchItem at hq
    simp only [] at hq
    split at hq
    · exact Option.noConfusion hq
    · split at hq
      · exact Option.noConfusion hq
      · split at hq <;> split at hq <;>
          first
            | exact Option.noConfusion hq
            | (simp only [Option.some_inj] at hq
               subst hq
               exact final _ _ rfl rfl rfl)

/-- Batch-response entry with a clearly positive change, for the C8
witness. -/
def quoteUpW : YahooQuoteRaw :=
  { symbol := some "MSFT", shortName := some "Microsoft", longName := none,
    regularMarketPrice := some 105, regularMarketPreviousClose := some 100,
    previousClose := none }

/-- The quote `fetchYahooBatchItem` produces for `quoteUpW`. -/
def quoteUpOut : MarketData :=
  { symbol := "MSFT", name := "Microsoft", price := 105, change := 5, changeRaw := 5,
    changePercent := 5, isPositive := true }

/-- Witness for `claimC8_isPositive` at a concrete batch entry. -/
theorem claimC8_isPositive_witness :
    quoteUpOut.isPositive = decide (0 ≤ quoteUpOut.changeRaw) :=
  (claimC8_isPositive.2 (fun _ => none) quoteUpW quoteUpOut
    (by with_unfolding_all rfl)).1

/-! ## Hand-compiled regular expressions

Each JS regex used by `StockHelper.tsx` is compiled into a scanning function
over `List Char` with JS semantics: the match is leftmost, alternatives are
tried in source order, and greedy quantifiers backtrack (implemented with
explicit continuations).  `\s+`/`\s*` are matched by maximal munch without
backtracking, which is sound here because in every pattern below the atom
following a whitespace quantifier cannot match a space character. -/

/-- Consume the literal `w` at the head of the input. -/
def litM (w : String) (cs : List Char) : Option (List Char) :=
  if litAt w.data cs then some (cs.drop w.data.length) else none

/-- Ordered alternation over literals with a continuation (full
backtracking: a later alternative is tried when the continuation fails). -/
def tryAlts {α : Type} (ws : List String) (cs : List Char)
    (cont : List Char → Option α) : Option α :=
  match ws with
  | [] => none
  | w :: rest =>
    (match litM w cs with
     | some cs' => cont cs'
     | none => none) <|> tryAlts rest cs cont

/-- Ordered alternation over literals, passing the matched literal to the
continuation. -/
def tryAltsCap {α : Type} (ws : List String) (cs : List Char)
    (cont : String → List Char → Option α) : Option α :=
  match ws with
  | [] => none
  | w :: rest =>
    (match litM w cs with
     | some cs' => cont w cs'
     | none => none) <|> tryAltsCap rest cs cont

/-- Regex `\s+`: at least one whitespace character, maximal munch. -/
def spaces1 {α : Type} (cs : List Char) (cont : List Char → Option α) : Option α :=
  let n := (cs.takeWhile isSpaceCh).length
  if n = 0 then none else cont (cs.drop n)

/-- Regex `\s*`: maximal munch. -/
def dropSpaces (cs : List Char) : List Char := cs.dropWhile isSpaceCh

/-- Greedy bounded character-class capture with backtracking
(`([a-z]{lo,hi})` and friends): try the longest feasible take first, down to
`lo` characters. -/
def capChompAux {α : Type} (cs : List Char) (lo : ℕ)
    (cont : List Char → List Char → Option α) : ℕ → Option α
  | 0 => none
  | k + 1 =>
    (if lo ≤ k + 1 then cont (cs.take (k + 1)) (cs.drop (k + 1)) else none) <|>
      capChompAux cs lo cont k

/-- Greedy capture of `lo`..`hi` characters satisfying `p`, with
backtracking. -/
def capChomp {α : Type} (p : Char → Bool) (lo hi : ℕ) (cs : List Char)
    (cont : List Char → List Char → Option α) : Option α :=
  capChompAux cs lo cont (min hi (cs.takeWhile p).length)

/-- Regex `[$€]?`: optionally consume one of `chars`, greedily, with
backtracking. -/
def optChar {α : Type} (chars : List Char) (cs : List Char)
    (cont : List Char → Option α) : Option α :=
  match cs with
  | c :: rest => if chars.contains c then cont rest <|> cont (c :: rest) else cont (c :: rest)
  | [] => cont []

/-- Regex `(\d+\.?\d*)` under `parseFloat`: capture a digit run, optionally a
dot and a second digit run, passing the numeric value on.  The digit runs
are matched by maximal munch (the following atom in every use site cannot
match a digit); the optional dot backtracks. -/
def capNum {α : Type} (cs : List Char) (cont : ℚ → List Char → Option α) : Option α :=
  let ip := cs.takeWhile isDigitCh
  if ip.isEmpty then none
  else
    let rest₁ := cs.drop ip.length
    match rest₁ with
    | '.' :: rest₂ =>
      let fp := rest₂.takeWhile isDigitCh
      cont (decTokenVal ip fp) (rest₂.drop fp.length) <|> cont ((digitsVal ip : ℚ)) rest₁
    | _ => cont ((digitsVal ip : ℚ)) rest₁

/-- Leftmost-match search: try the position matcher at every index, left to
right. -/
def scanM {α : Type} (m : List Char → Option α) : List Char → Option α
  | [] => m []
  | c :: cs => m (c :: cs) <|> scanM m cs

/-- Test helper for patterns of the form `A.*B` (no `s` flag): an occurrence
of one of `objs` later on the same line. -/
def dotStarThen (objs : List String) : List Char → Bool
  | [] => false
  | c :: cs =>
    objs.any (fun o => litAt o.data (c :: cs)) ||
      (!(c = '\n' || c = '\x0d') && dotStarThen objs cs)

/-- Test for `(?:v₁|…)/.*(?:o₁|…)`: some verb occurrence followed on the same
line by some object occurrence. -/
def verbThenObj (verbs objs : List String) : List Char → Bool
  | [] => false
  | c :: cs =>
    verbs.any (fun v => litAt v.data (c :: cs) && dotStarThen objs ((c :: cs).drop v.data.length)) ||
      verbThenObj verbs objs cs

/-- Test for `a.?b`: `a`, then at most one non-newline character, then `b`. -/
def dotQTest (a b : String) : List Char → Bool
  | [] => false
  | c :: cs =>
    (litAt a.data (c :: cs) &&
      (let rest := (c :: cs).drop a.data.length
       litAt b.data rest ||
         (match rest with
          | [] => false
          | d :: rest' => !(d = '\n' || d = '\x0d') && litAt b.data rest'))) ||
      dotQTest a b cs

/-! ## The action-command regexes (`handleAction`, StockHelper.tsx 1633–1847)

All patterns run on `lowerMsg = msg.toLowerCase()`; the `i` flag is then
immaterial and `[a-z]` classes match exactly lowercase letters. -/

/-- Tail `(?:watchlist|watch\s*list)`. -/
def watchlistLit {α : Type} (cs : List Char) (cont : List Char → Option α) : Option α :=
  ((litM "watchlist" cs).bind cont) <|>
    ((litM "watch" cs).bind (fun cs' => (litM "list" (dropSpaces cs')).bind cont))

/-- Optional `(?:my\s*)?`. -/
def optMy {α : Type} (cs : List Char) (cont : List Char → Option α) : Option α :=
  ((litM "my" cs).bind (fun cs' => cont (dropSpaces cs'))) <|> cont cs

/-- Position matcher for
`/(?:add|put|include|track|watch)\s+([a-z]{1,5})\s+(?:to|in|on)\s*(?:my\s*)?(?:watchlist|watch\s*list)/i`. -/
def awAlt1At (cs : List Char) : Option (List Char) :=
  tryAlts ["add", "put", "include", "track", "watch"] cs (fun cs₁ =>
    spaces1 cs₁ (fun cs₂ =>
      capChomp isLowerCh 1 5 cs₂ (fun cap cs₃ =>
        spaces1 cs₃ (fun cs₄ =>
          tryAlts ["to", "in", "on"] cs₄ (fun cs₅ =>
            optMy (dropSpaces cs₅) (fun cs₆ =>
              watchlistLit cs₆ (fun _ => some cap)))))))

/-- Position matcher for `/(?:watchlist|watch)\s+(?:add|track)\s+([a-z]{1,5})/i`. -/
def awAlt2At (cs : List Char) : Option (List Char) :=
  tryAlts ["watchlist", "watch"] cs (fun cs₁ =>
    spaces1 cs₁ (fun cs₂ =>
      tryAlts ["add", "track"] cs₂ (fun cs₃ =>
        spaces1 cs₃ (fun cs₄ =>
          capChomp isLowerCh 1 5 cs₄ (fun cap _ => some cap)))))

/-- Position matcher for `/(?:add|track)\s+([a-z]{1,5})/i`. -/
def awAlt3At (cs : List Char) : Option (List Char) :=
  tryAlts ["add", "track"] cs (fun cs₁ =>
    spaces1 cs₁ (fun cs₂ =>
      capChomp isLowerCh 1 5 cs₂ (fun cap _ => some cap)))

/-- `addWatchlistMatch`: the three regexes are tried over the whole message
in source order (`m1 || m2 || m3`), each with leftmost-match search. -/
def addWatchlistMatch (lowerMsg : List Char) : Option (List Char) :=
  scanM awAlt1At lowerMsg <|> scanM awAlt2At lowerMsg <|> scanM awAlt3At lowerMsg

/-- Position matcher for
`/(?:remove|delete|drop|unwatch)\s+([a-z]{1,5})\s+(?:from|off)\s*(?:my\s*)?(?:watchlist|watch\s*list)/i`. -/
def rwAlt1At (cs : List Char) : Option (List Char) :=
  tryAlts ["remove", "delete", "drop", "unwatch"] cs (fun cs₁ =>
    spaces1 cs₁ (fun cs₂ =>
      capChomp isLowerCh 1 5 cs₂ (fun cap cs₃ =>
        spaces1 cs₃ (fun cs₄ =>
          tryAlts ["from", "off"] cs₄ (fun cs₅ =>
            optMy (dropSpaces cs₅) (fun cs₆ =>
              watchlistLit cs₆ (fun _ => some cap)))))))

/-- Position matcher for `/(?:remove|delete)\s+([a-z]{1,5})/i`. -/
def rwAlt2At (cs : List Char) : Option (List Char) :=
  tryAlts ["remove", "delete"] cs (fun cs₁ =>
    spaces1 cs₁ (fun cs₂ =>
      capChomp isLowerCh 1 5 cs₂ (fun cap _ => some cap)))

/-- `removeWatchlistMatch` (`m1 || m2`). -/
def removeWatchlistMatch (lowerMsg : List Char) : Option (List Char) :=
  scanM rwAlt1At lowerMsg <|> scanM rwAlt2At lowerMsg

/-- Optional `(?:shares?\s+(?:of\s+)?)?`. -/
def optShares {α : Type} (cs : List Char) (cont : List Char → Option α) : Option α :=
  ((litM "share" cs).bind (fun cs₁ =>
    let afterS := fun (cs₂ : List Char) =>
      spaces1 cs₂ (fun cs₃ =>
        ((litM "of" cs₃).bind (fun cs₄ => spaces1 cs₄ cont)) <|> cont cs₃)
    ((litM "s" cs₁).bind afterS) <|> afterS cs₁)) <|> cont cs

/-- Position matcher for
`/(?:add|buy|purchase)\s+(\d+\.?\d*)\s*(?:shares?\s+(?:of\s+)?)?([a-z]{1,5})\s+(?:to|in)\s*(?:my\s*)?(?:portfolio)/i`. -/
def apAlt1At (cs : List Char) : Option (ℚ × List Char) :=
  tryAlts ["add", "buy", "purchase"] cs (fun cs₁ =>
    spaces1 cs₁ (fun cs₂ =>
      capNum cs₂ (fun qty cs₃ =>
        optShares (dropSpaces cs₃) (fun cs₄ =>
          capChomp isLowerCh 1 5 cs₄ (fun cap cs₅ =>
            spaces1 cs₅ (fun cs₆ =>
              tryAlts ["to", "in"] cs₆ (fun cs₇ =>
                optMy (dropSpaces cs₇) (fun cs₈ =>
                  (litM "portfolio" cs₈).bind (fun _ => some (qty, cap))))))))))

/-- Position matcher for `/(?:portfolio)\s+(?:add|buy)\s+(\d+\.?\d*)\s+([a-z]{1,5})/i`. -/
def apAlt2At (cs : List Char) : Option (ℚ × List Char) :=
  (litM "portfolio" cs).bind (fun cs₁ =>
    spaces1 cs₁ (fun cs₂ =>
      tryAlts ["add", "buy"] cs₂ (fun cs₃ =>
        spaces1 cs₃ (fun cs₄ =>
          capNum cs₄ (fun qty cs₅ =>
            spaces1 cs₅ (fun cs₆ =>
              capChomp isLowerCh 1 5 cs₆ (fun cap _ => some (qty, cap))))))))

/-- Position matcher for `/(?:buy|add)\s+(\d+\.?\d*)\s+([a-z]{1,5})/i`. -/
def apAlt3At (cs : List Char) : Option (ℚ × List Char) :=
  tryAlts ["buy", "add"] cs (fun cs₁ =>
    spaces1 cs₁ (fun cs₂ =>
      capNum cs₂ (fun qty cs₃ =>
        spaces1 cs₃ (fun cs₄ =>
          capChomp isLowerCh 1 5 cs₄ (fun cap _ => some (qty, cap))))))

/-- `addPortfolioMatch` (`m1 || m2 || m3`). -/
def addPortfolioMatch (lowerMsg : List Char) : Option (ℚ × List Char) :=
  scanM apAlt1At lowerMsg <|> scanM apAlt2At lowerMsg <|> scanM apAlt3At lowerMsg

/-- Position matcher for
`/(?:create|make|build|start)\s+(?:a\s+)?watchlist\s+(?:with|of|containing)\s+(.+)/i`;
the capture `(.+)` greedily takes the rest of the line. -/
def cwAt (cs : List Char) : Option (List Char) :=
  tryAlts ["create", "make", "build", "start"] cs (fun cs₁ =>
    spaces1 cs₁ (fun cs₂ =>
      (((litM "a" cs₂).bind (fun cs' => spaces1 cs' (fun cs₃ => litM "watchlist" cs₃))) <|>
          litM "watchlist" cs₂).bind (fun cs₄ =>
        spaces1 cs₄ (fun cs₅ =>
          tryAlts ["with", "of", "containing"] cs₅ (fun cs₆ =>
            spaces1 cs₆ (fun cs₇ =>
              let tail := cs₇.takeWhile (fun c => !(c = '\n' || c = '\x0d'))
              if tail.isEmpty then none else some tail))))))

/-- `createWatchlistMatch`. -/
def createWatchlistMatch (lowerMsg : List Char) : Option (List Char) :=
  scanM cwAt lowerMsg

/-- Test for `/(?:make|create|build|give|start).*(?:portfolio|watchlist|investments)/i`. -/
def isPortfolioCreate (lowerMsg : List Char) : Bool :=
  verbThenObj ["make", "create", "build", "give", "start"]
    ["portfolio", "watchlist", "investments"] lowerMsg

/-! ## Global-scan helpers (`match(..., /…/g)` loops) -/

/-- A `takeWhile` prefix is no longer than the list. -/
theorem takeWhileLen_le (p : Char → Bool) (cs : List Char) :
    (cs.takeWhile p).length ≤ cs.length := by
  induction cs with
  | nil => simp
  | cons c cs ih =>
    by_cases h : p c
    · simp only [List.takeWhile_cons, h, if_true, List.length_cons]
      omega
    · simp [List.takeWhile_cons, h]

/-- Auxiliary bound: consuming a nonempty matched run shortens the input. -/
theorem length_drop_takeWhile_lt (p : Char → Bool) (c : Char) (cs : List Char)
    (h : p c = true) :
    ((c :: cs).drop ((c :: cs).takeWhile p).length).length < (c :: cs).length := by
  rw [List.takeWhile_cons_of_pos h]
  have := takeWhileLen_le p cs
  simp only [List.length_drop, List.length_cons]
  omega

/-- All maximal digit runs of the input (regex `/\d+/g`). -/
def digitRuns : List Char → List (List Char)
  | [] => []
  | c :: cs =>
    if h : isDigitCh c then
      ((c :: cs).takeWhile isDigitCh) ::
        digitRuns ((c :: cs).drop ((c :: cs).takeWhile isDigitCh).length)
    else digitRuns cs
termination_by l => l.length
decreasing_by
  · exact length_drop_takeWhile_lt isDigitCh c cs h
  · simp

/-- All `/\d+\.?\d*/g` tokens of the input as `parseFloat` values (digit run,
optional dot, digit run). -/
def numTokens : List Char → List ℚ
  | [] => []
  | c :: cs =>
    if h : isDigitCh c then
      let ip := (c :: cs).takeWhile isDigitCh
      let rest₁ := (c :: cs).drop ip.length
      let fp := rest₁.tail.takeWhile isDigitCh
      if rest₁.head? = some '.' then
        decTokenVal ip fp :: numTokens (rest₁.tail.drop fp.length)
      else (digitsVal ip : ℚ) :: numTokens rest₁
    else numTokens cs
termination_by l => l.length
decreasing_by
  · have h3 := takeWhileLen_le isDigitCh (c :: cs)
    have h4 := takeWhileLen_le isDigitCh
      ((c :: cs).drop ((c :: cs).takeWhile isDigitCh).length).tail
    simp only [List.length_drop, List.length_cons, List.length_tail] at h3 h4 ⊢
    omega
  · exact length_drop_takeWhile_lt isDigitCh c cs h
  · simp

/-- First match of `/\b(20[2-9]\d)\b/`: a four-digit year `202x`–`209x`
delimited by word boundaries, scanned left to right (`prev` tracks whether
the previous character was a word character). -/
def yearScan (prev : Bool) : List Char → Option ℕ
  | [] => none
  | c :: cs =>
    (if !prev && litAt ['2', '0'] (c :: cs) then
      match cs with
      | _ :: c2 :: c3 :: rest =>
        if ('2' ≤ c2 && c2 ≤ '9') && isDigitCh c3 &&
            (match rest with | [] => true | d :: _ => !isWordCh d) then
          some (digitsVal ['2', '0', c2, c3])
        else none
      | _ => none
    else none) <|> yearScan (isWordCh c) cs

/-- All `/[A-Z]{1,5}/g` matches: uppercase runs chopped greedily into chunks
of at most five (no word boundaries in this pattern). -/
def chunks5 : List Char → List (List Char)
  | [] => []
  | c :: cs =>
    if h : isUpperCh c then
      (((c :: cs).takeWhile isUpperCh).take 5) ::
        chunks5 ((c :: cs).drop (((c :: cs).takeWhile isUpperCh).take 5).length)
    else chunks5 cs
termination_by l => l.length
decreasing_by
  · rw [List.takeWhile_cons_of_pos h]
    simp only [List.length_drop, List.length_cons, List.length_take, List.take_cons]
    omega
  · simp

/-- Is the next character a non-word character or the end of the string
(regex `\b` after a word character)? -/
def boundaryAfter : List Char → Bool
  | [] => true
  | d :: _ => !isWordCh d

/-- All `/\b([A-Z]{3,5})\b/g` matches: an uppercase run of length 3–5
starting at a word boundary and ending at one.  `prev` tracks whether the
previous character was a word character; after a successful match scanning
resumes at the match end (`lastIndex` semantics). -/
def symScan (prev : Bool) : List Char → List (List Char)
  | [] => []
  | c :: cs =>
    if h : (!prev && decide (3 ≤ ((c :: cs).takeWhile isUpperCh).length) &&
        decide (((c :: cs).takeWhile isUpperCh).length ≤ 5) &&
        boundaryAfter ((c :: cs).drop ((c :: cs).takeWhile isUpperCh).length)) = true then
      ((c :: cs).takeWhile isUpperCh) ::
        symScan true ((c :: cs).drop ((c :: cs).takeWhile isUpperCh).length)
    else symScan (isWordCh c) cs
termination_by l => l.length
decreasing_by
  · simp only [Bool.and_eq_true, decide_eq_true_eq] at h
    have h3 := h.1.1.2
    simp only [List.length_drop, List.length_cons]
    omega
  · simp

/-- Maximal word-character runs of the input (the tokens the spec speaks
about); `prev` plays the same role as in `symScan`. -/
def wordTokensAux (prev : Bool) : List Char → List (List Char)
  | [] => []
  | c :: cs =>
    if h : (!prev && isWordCh c) = true then
      ((c :: cs).takeWhile isWordCh) ::
        wordTokensAux true ((c :: cs).drop ((c :: cs).takeWhile isWordCh).length)
    else wordTokensAux (isWordCh c) cs
termination_by l => l.length
decreasing_by
  · simp only [Bool.and_eq_true] at h
    exact length_drop_takeWhile_lt isWordCh c cs h.2
  · simp

/-- The word tokens of a string. -/
def wordTokens (cs : List Char) : List (List Char) := wordTokensAux false cs

/-! ## `handleAction` (StockHelper.tsx lines 1633–1847)

The component-level action parser.  The host page supplies all four
mutation callbacks (`onAddToWatchlist`, `onRemoveFromWatchlist`,
`onAddToPortfolio` and the watchlist/portfolio props), so the
callback-presence conjuncts of the source's branch guards are all true
here; invoked callbacks are recorded as an effect list.  Responses are
tagged constructors carrying the data each template interpolates. -/

/-- A host-callback invocation recorded by the model. -/
inductive ActionEffect where
  | addW (sym : String)
  | remW (sym : String)
  | addP (sym : String) (qty : ℚ)
deriving DecidableEq, Repr

/-- The response `handleAction` returns, one constructor per template
string, carrying the interpolated data. -/
inductive ActionResp where
  | alreadyWatch (sym : String)
  | addedWatch (sym : String) (count : ℕ)
  | notInWatch (sym : String)
  | removedWatch (sym : String)
  | invalidQty
  | addedPortfolio (qty : ℚ) (sym : String)
  | watchEmpty
  | watchList (syms : List String)
  | portfolioEmpty
  | portfolioList (entries : List (String × ℚ))
  | createNoSymbols
  | createdWatchlist (syms : List String)
  | themedCaution (budget goal : ℕ) (years : ℕ)
  | themedCreated (theme : String) (stocks : List String)
      (realism : Option (ℕ × ℕ))
deriving DecidableEq, Repr

/-- The `portfolioThemes` table, in object-literal insertion order. -/
def portfolioThemes : List (String × List String) :=
  [("european", ["VGK", "EZU", "ASML", "SAP", "NVO"]),
   ("europe", ["VGK", "EZU", "ASML", "SAP", "NVO"]),
   ("cheap", ["VOO", "VTI", "SCHD"]),
   ("budget", ["VOO", "VTI", "SCHD"]),
   ("tech", ["AAPL", "MSFT", "NVDA", "GOOGL", "AMD"]),
   ("technology", ["AAPL", "MSFT", "NVDA", "GOOGL", "AMD"]),
   ("dividend", ["SCHD", "VYM", "O", "KO", "JNJ"]),
   ("income", ["SCHD", "VYM", "O", "KO", "JNJ"]),
   ("growth", ["NVDA", "TSLA", "AMD", "AMZN", "META"]),
   ("aggressive", ["NVDA", "TSLA", "AMD", "COIN", "PLTR"]),
   ("safe", ["VOO", "BND", "JNJ", "PG", "KO"]),
   ("conservative", ["VOO", "BND", "JNJ", "PG", "KO"]),
   ("beginner", ["VOO", "QQQ", "VTI"]),
   ("asian", ["VWO", "EWT", "TSM", "BABA", "SONY"]),
   ("asia", ["VWO", "EWT", "TSM", "BABA", "SONY"]),
   ("green", ["ICLN", "TAN", "TSLA", "ENPH"]),
   ("sustainable", ["ICLN", "TAN", "TSLA", "ENPH"]),
   ("crypto", ["COIN", "MSTR", "SQ"])]

/-- First theme whose keyword occurs in the message, else the balanced
default. -/
def matchThemePair (lowerMsg : List Char) : String × List String :=
  match portfolioThemes.find? (fun p => hasSub p.1.data lowerMsg) with
  | some p => p
  | none => ("balanced", ["VOO", "QQQ", "VEA", "SCHD", "BND"])

/-- `allNumbers` of the themed-portfolio branch: `/\d+/g` matches under
`parseInt`. -/
def themedAllNumbers (lowerMsg : List Char) : List ℕ :=
  (digitRuns lowerMsg).map digitsVal

/-- The `amounts` array: year-like numbers filtered out, sorted ascending. -/
def themedAmounts (lowerMsg : List Char) : List ℕ :=
  ((themedAllNumbers lowerMsg).filter (fun n => n < 2020 || n > 2099)).insertionSort (· ≤ ·)

/-- `budget`: smallest surviving number, 0 when none. -/
def themedBudget (lowerMsg : List Char) : ℕ := (themedAmounts lowerMsg).headD 0

/-- `goal`: largest surviving number when at least two survive, else 0. -/
def themedGoal (lowerMsg : List Char) : ℕ :=
  if 2 ≤ (themedAmounts lowerMsg).length then (themedAmounts lowerMsg).getLastD 0 else 0

/-- `yearsToGoal`: distance to a matched target year, at least 1; default 5.
(`new Date().getFullYear()` is the `currentYear` parameter.) -/
def themedYears (currentYear : ℕ) (lowerMsg : List Char) : ℕ :=
  match yearScan false lowerMsg with
  | some y => max 1 (y - currentYear)
  | none => 5

/-- The realism gate `multiplier > 5 && budget < 100`, where
`multiplier = goal > budget ? goal / budget : 0`.  In JS a positive goal
over a zero budget divides to `Infinity`, which passes `> 5`; over a
positive budget, `goal / budget > 5` iff `goal > 5 * budget`. -/
def realismGate (budget goal : ℕ) : Bool :=
  decide (budget < goal) && decide (budget < 100) &&
    (decide (budget = 0) || decide (5 * budget < goal))

/-- The create-themed-portfolio branch (StockHelper.tsx lines 1738–1846),
reached when `isPortfolioCreate` tests true and no earlier template
matched. -/
def createThemedPortfolio (currentYear : ℕ) (lowerMsg : List Char) :
    Option ActionResp × List ActionEffect :=
  let theme := matchThemePair lowerMsg
  let budget := themedBudget lowerMsg
  let goal := themedGoal lowerMsg
  if realismGate budget goal then
    (some (ActionResp.themedCaution budget goal (themedYears currentYear lowerMsg)), [])
  else
    (some (ActionResp.themedCreated theme.1 theme.2
        (if 0 < budget ∧ budget < goal then some (budget, goal) else none)),
      theme.2.flatMap (fun s => [ActionEffect.addW s, ActionEffect.addP s 1]))

/-- The `show … watchlist` guard
(`lowerMsg.includes('show') && lowerMsg.includes('watchlist') || lowerMsg.includes('my watchlist')`). -/
def showWatchCond (lowerMsg : List Char) : Bool :=
  (hasSubS "show" lowerMsg && hasSubS "watchlist" lowerMsg) || hasSubS "my watchlist" lowerMsg

/-- The `show … portfolio` guard. -/
def showPortfolioCond (lowerMsg : List Char) : Bool :=
  (hasSubS "show" lowerMsg && hasSubS "portfolio" lowerMsg) || hasSubS "my portfolio" lowerMsg

/-- The full `handleAction` cascade.  Returns the response (`none` = no
action matched, fall through to the analysis engine) and the callback
invocations, in order. -/
def handleAction (watchlistSymbols : List String)
    (portfolioPositionMap : List (String × ℚ)) (currentYear : ℕ)
    (msg : String) : Option ActionResp × List ActionEffect :=
  let lowerMsg := lowStr msg.data
  match addWatchlistMatch lowerMsg with
  | some cap =>
    let symbol := String.mk (upStr cap)
    if watchlistSymbols.contains symbol then (some (ActionResp.alreadyWatch symbol), [])
    else (some (ActionResp.addedWatch symbol (watchlistSymbols.length + 1)),
      [ActionEffect.addW symbol])
  | none =>
  match removeWatchlistMatch lowerMsg with
  | some cap =>
    let symbol := String.mk (upStr cap)
    if !watchlistSymbols.contains symbol then (some (ActionResp.notInWatch symbol), [])
    else (some (ActionResp.removedWatch symbol), [ActionEffect.remW symbol])
  | none =>
  match addPortfolioMatch lowerMsg with
  | some qc =>
    let symbol := String.mk (upStr qc.2)
    if qc.1 ≤ 0 then (some ActionResp.invalidQty, [])
    else (some (ActionResp.addedPortfolio qc.1 symbol), [ActionEffect.addP symbol qc.1])
  | none =>
  if showWatchCond lowerMsg then
    (if watchlistSymbols.isEmpty then (some ActionResp.watchEmpty, [])
     else (some (ActionResp.watchList watchlistSymbols), []))
  else if showPortfolioCond lowerMsg then
    (if portfolioPositionMap.isEmpty then (some ActionResp.portfolioEmpty, [])
     else (some (ActionResp.portfolioList portfolioPositionMap), []))
  else
  match createWatchlistMatch lowerMsg with
  | some stocksText =>
    let symbols := chunks5 (upStr stocksText)
    let validSymbols := (symbols.map String.mk).filter
      (fun s => !(["AND", "THE", "WITH", "FOR"].contains s))
    if validSymbols.isEmpty then (some ActionResp.createNoSymbols, [])
    else (some (ActionResp.createdWatchlist validSymbols),
      validSymbols.map ActionEffect.addW)
  | none =>
  if isPortfolioCreate lowerMsg then createThemedPortfolio currentYear lowerMsg
  else (none, [])

/-- Claim C1 counterexample: the message
"create a portfolio, add my 20 euros into 2000" matches the
create-themed-portfolio template (`isPortfolioCreate`) and carries gate
numbers budget 20, goal 2000 (a 100x multiplier with budget below 100), so
the claim demands a cautionary reply with no callback invocations — but
`handleAction` resolves the earlier add-to-watchlist template
(`/(?:add|track)\s+([a-z]{1,5})/` matches "add my"), invokes
`onAddToWatchlist("MY")` and returns the added-to-watchlist reply. -/
theorem claimC1_counterexample :
    isPortfolioCreate (lowStr "create a portfolio, add my 20 euros into 2000".data) = true ∧
    themedBudget (lowStr "create a portfolio, add my 20 euros into 2000".data) = 20 ∧
    themedGoal (lowStr "create a portfolio, add my 20 euros into 2000".data) = 2000 ∧
    realismGate 20 2000 = true ∧
    handleAction [] [] 2025 "create a portfolio, add my 20 euros into 2000" =
      (some (ActionResp.addedWatch "MY" 1), [ActionEffect.addW "MY"]) := by
  refine ⟨by with_unfolding_all decide, by with_unfolding_all decide,
    by with_unfolding_all decide, by with_unfolding_all decide,
    by with_unfolding_all decide⟩

/-- Claim C1 (amended): for every message that reaches the
create-themed-portfolio branch — it tests positive for the themed-portfolio
template and no earlier action template (add/remove watchlist, add
portfolio, show watchlist/portfolio, create-watchlist-with-list) matched —
`handleAction` behaves as claimed: when the realism gate fires
(goal/budget > 5 and budget < 100) it returns the cautionary reply and
invokes no callback; otherwise it adds every symbol of the matched theme to
both the watchlist and the portfolio with quantity 1, attaching the
goal-realism report exactly when budget and goal numbers were present
(budget > 0 and goal > budget). -/
theorem claimC1_themedPortfolio (watchlist : List String)
    (portfolio : List (String × ℚ)) (year : ℕ) (msg : String)
    (h1 : addWatchlistMatch (lowStr msg.data) = none)
    (h2 : removeWatchlistMatch (lowStr msg.data) = none)
    (h3 : addPortfolioMatch (lowStr msg.data) = none)
    (h4 : showWatchCond (lowStr msg.data) = false)
    (h5 : showPortfolioCond (lowStr msg.data) = false)
    (h6 : createWatchlistMatch (lowStr msg.data) = none)
    (h7 : isPortfolioCreate (lowStr msg.data) = true) :
    (realismGate (themedBudget (lowStr msg.data)) (themedGoal (lowStr msg.data)) = true →
      handleAction watchlist portfolio year msg =
        (some (ActionResp.themedCaution (themedBudget (lowStr msg.data))
          (themedGoal (lowStr msg.data)) (themedYears year (lowStr msg.data))), [])) ∧
    (realismGate (themedBudget (lowStr msg.data)) (themedGoal (lowStr msg.data)) = false →
      handleAction watchlist portfolio year msg =
        (some (ActionResp.themedCreated (matchThemePair (lowStr msg.data)).1
            (matchThemePair (lowStr msg.data)).2
            (if 0 < themedBudget (lowStr msg.data) ∧
                themedBudget (lowStr msg.data) < themedGoal (lowStr msg.data) then
              some (themedBudget (lowStr msg.data), themedGoal (lowStr msg.data))
            else none)),
          (matchThemePair (lowStr msg.data)).2.flatMap
            (fun s => [ActionEffect.addW s, ActionEffect.addP s 1]))) := by
  have hmain : handleAction watchlist portfolio year msg =
      createThemedPortfolio year (lowStr msg.data) := by
    simp only [handleAction, h1, h2, h3, h4, h5, h6, h7, if_true,
      Bool.false_eq_true, if_false]
  constructor
  · intro hg
    rw [hmain]
    simp only [createThemedPortfolio, hg, if_true]
  · intro hg
    rw [hmain]
    simp only [createThemedPortfolio, hg, Bool.false_eq_true, if_false]

/-- Witness for `claimC1_themedPortfolio`: "create a tech portfolio" reaches
the themed branch, carries no numbers (gate off, no realism report) and adds
the five tech symbols to both lists. -/
theorem claimC1_themedPortfolio_witness :
    handleAction [] [] 2025 "create a tech portfolio" =
      (some (ActionResp.themedCreated "tech" ["AAPL", "MSFT", "NVDA", "GOOGL", "AMD"] none),
        [ActionEffect.addW "AAPL", ActionEffect.addP "AAPL" 1,
         ActionEffect.addW "MSFT", ActionEffect.addP "MSFT" 1,
         ActionEffect.addW "NVDA", ActionEffect.addP "NVDA" 1,
         ActionEffect.addW "GOOGL", ActionEffect.addP "GOOGL" 1,
         ActionEffect.addW "AMD", ActionEffect.addP "AMD" 1]) :=
  ((claimC1_themedPortfolio [] [] 2025 "create a tech portfolio"
      (by with_unfolding_all decide) (by with_unfolding_all decide)
      (by with_unfolding_all decide) (by with_unfolding_all decide)
      (by with_unfolding_all decide) (by with_unfolding_all decide)
      (by with_unfolding_all decide)).2
    (by with_unfolding_all decide)).trans (by with_unfolding_all decide)

/-! ## `getInvestmentAdvice` (StockHelper.tsx lines 371–522)

The investment-goal parser.  It runs on the lower-cased message (all its
regexes carry the `i` flag and `generateResponse` lower-cases before the
call).  The returned record carries the parsed amount/target, the computed
multiplier, the advice tier the response text is built from, the currency
symbol, and the updated conversation context. -/

/-- Position matcher for the `hasAmount` pattern
`/(?:i have|got|with|start|starting)\s*[$€]?\s*(\d+\.?\d*)/i`. -/
def hasAmountAt (cs : List Char) : Option ℚ :=
  tryAlts ["i have", "got", "with", "start", "starting"] cs (fun cs₁ =>
    optChar ['$', '€'] (dropSpaces cs₁) (fun cs₂ =>
      capNum (dropSpaces cs₂) (fun v _ => some v)))

/-- Position matcher for the `targetAmount` pattern
`/(?:into|make|become|get|reach|to)\s*[$€]?\s*(\d+\.?\d*)/i`. -/
def targetAmountAt (cs : List Char) : Option ℚ :=
  tryAlts ["into", "make", "become", "get", "reach", "to"] cs (fun cs₁ =>
    optChar ['$', '€'] (dropSpaces cs₁) (fun cs₂ =>
      capNum (dropSpaces cs₂) (fun v _ => some v)))

/-- Position matcher for the `rangePattern`
`/(\d+\.?\d*)\s*(?:to|into|→|->)\s*(\d+\.?\d*)/i`. -/
def rangePatternAt (cs : List Char) : Option (ℚ × ℚ) :=
  capNum cs (fun v₁ cs₁ =>
    tryAlts ["to", "into", "→", "->"] (dropSpaces cs₁) (fun cs₂ =>
      capNum (dropSpaces cs₂) (fun v₂ _ => some (v₁, v₂))))

/-- Position matcher for the `multiplierWords` pattern
`/(double|triple|quadruple|10x|100x|2x|3x|5x|20x|50x)/i`. -/
def multWordAt (cs : List Char) : Option String :=
  tryAltsCap ["double", "triple", "quadruple", "10x", "100x", "2x", "3x", "5x",
    "20x", "50x"] cs (fun w _ => some w)

/-- The `multipliers` lookup table; unknown words default to 10
(`multipliers[mult] || 10`). -/
def multVal (w : String) : ℚ :=
  match [("double", (2 : ℚ)), ("2x", 2), ("triple", 3), ("3x", 3),
      ("quadruple", 4), ("5x", 5), ("10x", 10), ("20x", 20), ("50x", 50),
      ("100x", 100)].find? (fun p => p.1 = w) with
  | some p => p.2
  | none => 10

/-- Conversation context (`lastAmount` / `lastTarget` instance fields). -/
structure ConvContext where
  lastAmount : ℚ
  lastTarget : ℚ
deriving DecidableEq, Repr

/-- Advice tier chosen by the `amount`/`multiplier` threshold chain; `flat`
is the fall-through (no tier section appended). -/
inductive AdviceTier where
  | tooSmall
  | extremelyUnrealistic
  | veryAggressive
  | achievable
  | flat
deriving DecidableEq, Repr

/-- Structured output of `getInvestmentAdvice`. -/
structure InvestmentAdvice where
  amount : ℚ
  target : ℚ
  multiplier : ℚ
  tier : AdviceTier
  currency : String
  ctxAfter : ConvContext
deriving DecidableEq, Repr

/-- The parser and threshold logic of `getInvestmentAdvice`, step by step:
amount from the range pattern / `hasAmount` / the smallest number; target
from the range pattern / `targetAmount` / the largest of ≥ 2 numbers;
multiplier words override the target; context fallback, the `target ≤
amount` bump, and the amount default 10; finally the tier thresholds
`amount < 50`, `multiplier ≥ 25 / ≥ 10 / ≥ 2`. -/
def getInvestmentAdvice (ctx : ConvContext) (msg0 : String) : InvestmentAdvice :=
  let msg := lowStr msg0.data
  let numbers := numTokens msg
  let sortedNums := numbers.insertionSort (· ≤ ·)
  let rp := scanM rangePatternAt msg
  let ha := scanM hasAmountAt msg
  let ta := scanM targetAmountAt msg
  let mw := scanM multWordAt msg
  let amount₁ :=
    match rp with
    | some ab => ab.1
    | none =>
      match ha with
      | some v => v
      | none =>
        if 0 < numbers.length then
          (if ctx.lastAmount = 0 then sortedNums.headD 0 else ctx.lastAmount)
        else ctx.lastAmount
  let target₁ := match rp with | some ab => ab.2 | none => ctx.lastTarget
  let target₂ :=
    if target₁ = 0 then
      match ta with
      | some v => v
      | none => if 2 ≤ numbers.length then sortedNums.getLastD 0 else target₁
    else target₁
  let target₃ :=
    match mw with
    | some w => if 0 < amount₁ then amount₁ * multVal w else target₂
    | none => target₂
  let amount₂ := if amount₁ = 0 ∧ 0 < ctx.lastAmount then ctx.lastAmount else amount₁
  let target₄ := if target₃ = 0 ∧ numbers.length = 1 then numbers.headD 0 else target₃
  let target₅ := if target₄ ≤ amount₂ then amount₂ * 10 else target₄
  let amount₃ := if amount₂ = 0 then 10 else amount₂
  let multiplier := target₅ / amount₃
  let currency := if hasSubS "dollar" msg || hasSubS "$" msg then "$" else "€"
  let tier :=
    if amount₃ < 50 then AdviceTier.tooSmall
    else if 25 ≤ multiplier then AdviceTier.extremelyUnrealistic
    else if 10 ≤ multiplier then AdviceTier.veryAggressive
    else if 2 ≤ multiplier then AdviceTier.achievable
    else AdviceTier.flat
  { amount := amount₃, target := target₅, multiplier := multiplier, tier := tier,
    currency := currency, ctxAfter := ⟨amount₃, target₅⟩ }

/-! ## Soundness facts about the matcher combinators

Every numeric capture these matchers can produce comes from a digit token,
hence is nonnegative; used for the division-safety claim C9. -/

/-- Digit tokens parse to nonnegative rationals. -/
theorem decTokenVal_nonneg (ip fp : List Char) : 0 ≤ decTokenVal ip fp := by
  unfold decTokenVal
  positivity

/-- Every value `numTokens` extracts is nonnegative. -/
theorem numTokens_nonneg (cs : List Char) : ∀ v ∈ numTokens cs, 0 ≤ v := by
  induction cs using numTokens.induct with
  | case1 =>
    intro v hv
    rw [numTokens] at hv
    exact absurd hv (by simp)
  | case2 c cs h ip rest₁ fp hdot ih =>
    intro v hv
    rw [numTokens, dif_pos h] at hv
    simp only [] at hv
    rw [if_pos hdot] at hv
    rcases List.mem_cons.mp hv with hv | hv
    · rw [hv]
      exact decTokenVal_nonneg _ _
    · exact ih v hv
  | case3 c cs h ip rest₁ hdot ih =>
    intro v hv
    rw [numTokens, dif_pos h] at hv
    simp only [] at hv
    rw [if_neg hdot] at hv
    rcases List.mem_cons.mp hv with hv | hv
    · rw [hv]
      positivity
    · exact ih v hv
  | case4 c cs h ih =>
    intro v hv
    rw [numTokens, dif_neg h] at hv
    exact ih v hv

/-- A successful leftmost-match search succeeds at some position. -/
theorem scanM_some {α : Type} {m : List Char → Option α} {r : α} :
    ∀ {cs : List Char}, scanM m cs = some r → ∃ cs', m cs' = some r := by
  intro cs
  induction cs with
  | nil => exact fun h => ⟨[], h⟩
  | cons c cs ih =>
    intro h
    rcases hm : m (c :: cs) with _ | r'
    · rw [scanM, hm, Option.none_orElse] at h
      exact ih h
    · rw [scanM, hm, Option.some_orElse] at h
      exact ⟨c :: cs, hm.trans h⟩

/-- A successful alternation hands some suffix to the continuation. -/
theorem tryAlts_some {α : Type} {cs : List Char} {cont : List Char → Option α}
    {r : α} : ∀ {ws : List String}, tryAlts ws cs cont = some r →
    ∃ cs', cont cs' = some r := by
  intro ws
  induction ws with
  | nil => exact fun h => absurd h (by simp [tryAlts])
  | cons w rest ih =>
    intro h
    rcases hl : litM w cs with _ | cs'
    · rw [tryAlts, hl, Option.none_orElse] at h
      exact ih h
    · rw [tryAlts, hl] at h
      simp only [] at h
      rcases hc : cont cs' with _ | r'
      · rw [hc, Option.none_orElse] at h
        exact ih h
      · rw [hc, Option.some_orElse] at h
        exact ⟨cs', hc.trans h⟩

/-- A successful optional-character step hands some suffix to the
continuation. -/
theorem optChar_some {α : Type} {chars : List Char} {cs : List Char}
    {cont : List Char → Option α} {r : α} (h : optChar chars cs cont = some r) :
    ∃ cs', cont cs' = some r := by
  rcases cs with _ | ⟨c, rest⟩
  · exact ⟨[], h⟩
  · rw [optChar] at h
    split at h
    · rcases hc : cont rest with _ | r'
      · rw [hc, Option.none_orElse] at h
        exact ⟨c :: rest, h⟩
      · rw [hc, Option.some_orElse] at h
        exact ⟨rest, hc.trans h⟩
    · exact ⟨c :: rest, h⟩

/-- A successful numeric capture passes a digit-token value — hence a
nonnegative one — to the continuation. -/
theorem capNum_some {α : Type} {cs : List Char} {cont : ℚ → List Char → Option α}
    {r : α} (h : capNum cs cont = some r) :
    ∃ v cs', 0 ≤ v ∧ cont v cs' = some r := by
  rw [capNum] at h
  split at h
  · exact Option.noConfusion h
  · simp only [] at h
    split at h
    · rcases hc : cont (decTokenVal (cs.takeWhile isDigitCh)
          (List.takeWhile isDigitCh _)) (List.drop _ _) with _ | r'
      · rw [hc, Option.none_orElse] at h
        exact ⟨_, _, by positivity, h⟩
      · rw [hc, Option.some_orElse] at h
        exact ⟨_, _, decTokenVal_nonneg _ _, hc.trans h⟩
    · exact ⟨_, _, by positivity, h⟩

/-- Values produced by the range pattern are nonnegative. -/
theorem rangePattern_nonneg {msg : List Char} {a b : ℚ}
    (h : scanM rangePatternAt msg = some (a, b)) : 0 ≤ a ∧ 0 ≤ b := by
  obtain ⟨cs₀, h⟩ := scanM_some h
  rw [rangePatternAt] at h
  obtain ⟨v₁, cs₁, hv₁, h⟩ := capNum_some h
  obtain ⟨cs₂, h⟩ := tryAlts_some h
  obtain ⟨v₂, cs₃, hv₂, h⟩ := capNum_some h
  obtain ⟨rfl, rfl⟩ := Prod.mk.injEq .. ▸ Option.some_inj.mp h
  exact ⟨hv₁, hv₂⟩

/-- Values produced by the `hasAmount` pattern are nonnegative. -/
theorem hasAmount_nonneg {msg : List Char} {v : ℚ}
    (h : scanM hasAmountAt msg = some v) : 0 ≤ v := by
  obtain ⟨cs₀, h⟩ := scanM_some h
  rw [hasAmountAt] at h
  obtain ⟨cs₁, h⟩ := tryAlts_some h
  obtain ⟨cs₂, h⟩ := optChar_some h
  obtain ⟨v', cs₃, hv, h⟩ := capNum_some h
  obtain rfl := Option.some_inj.mp h
  exact hv

set_option maxRecDepth 8000 in
/-- Claim C2: with fresh context, "I have 100 dollars, turn it into 1000"
parses to amount 100, target 1000, multiplier 10 in the very-aggressive
tier, and "double my 50 euros" parses to amount 50 with target 100 via the
multiplier word. -/
theorem claimC2_investmentParsing :
    (getInvestmentAdvice ⟨0, 0⟩ "I have 100 dollars, turn it into 1000").amount = 100 ∧
    (getInvestmentAdvice ⟨0, 0⟩ "I have 100 dollars, turn it into 1000").target = 1000 ∧
    (getInvestmentAdvice ⟨0, 0⟩ "I have 100 dollars, turn it into 1000").multiplier = 10 ∧
    (getInvestmentAdvice ⟨0, 0⟩ "I have 100 dollars, turn it into 1000").tier =
      AdviceTier.veryAggressive ∧
    (getInvestmentAdvice ⟨0, 0⟩ "double my 50 euros").amount = 50 ∧
    (getInvestmentAdvice ⟨0, 0⟩ "double my 50 euros").target = 100 := by
  refine ⟨?_, ?_, ?_, ?_, ?_, ?_⟩ <;> with_unfolding_all decide


/-- The default step `if (amount === 0) amount = 10` makes a nonnegative
amount strictly positive. -/
theorem amountDefault_pos (a : ℚ) (ha : 0 ≤ a) : 0 < if a = 0 then (10 : ℚ) else a := by
  split_ifs with h0
  · norm_num
  · exact lt_of_le_of_ne ha (Ne.symm h0)

/-- The head of a list of nonnegative rationals (default 0) is
nonnegative. -/
theorem headD_nonneg {l : List ℚ} (hl : ∀ v ∈ l, 0 ≤ v) : 0 ≤ l.headD 0 := by
  cases l with
  | nil => exact le_refl 0
  | cons v rest => exact hl v (List.mem_cons_self v rest)

/-- Claim C9: from any reachable context (`lastAmount ≥ 0`; the initial
context is 0 and, as proved here, every call stores a positive amount), a
call to `getInvestmentAdvice` stores a strictly positive `lastAmount`,
which is exactly the amount the multiplier `target / amount` was computed
from — so the division in that call and in any later call falling back to
the remembered context never divides by zero. -/
theorem claimC9_lastAmount_positive (ctx : ConvContext) (msg : String)
    (h : 0 ≤ ctx.lastAmount) :
    0 < (getInvestmentAdvice ctx msg).ctxAfter.lastAmount ∧
    (getInvestmentAdvice ctx msg).amount = (getInvestmentAdvice ctx msg).ctxAfter.lastAmount := by
  refine ⟨?_, rfl⟩
  simp only [getInvestmentAdvice]
  apply amountDefault_pos
  have hsortmem : ∀ v ∈ (numTokens (lowStr msg.data)).insertionSort (· ≤ ·), 0 ≤ v := by
    intro v hv
    exact numTokens_nonneg (lowStr msg.data) v
      (((List.perm_insertionSort (· ≤ ·) (numTokens (lowStr msg.data))).mem_iff).mp hv)
  have hhead := headD_nonneg hsortmem
  rcases hrp : scanM rangePatternAt (lowStr msg.data) with _ | ab
  · rcases hha : scanM hasAmountAt (lowStr msg.data) with _ | av
    · simp only [hrp, hha]
      split_ifs <;> assumption
    · simp only [hrp, hha]
      have hav := hasAmount_nonneg hha
      split_ifs <;> assumption
  · simp only [hrp]
    have hab := (rangePattern_nonneg (by rw [hrp])).1
    split_ifs <;> assumption

/-- Witness for `claimC9_lastAmount_positive` at the fresh context and a
message with no numbers: the stored amount is the default 10. -/
theorem claimC9_lastAmount_positive_witness :
    0 < (getInvestmentAdvice ⟨0, 0⟩ "what should i do").ctxAfter.lastAmount :=
  (claimC9_lastAmount_positive ⟨0, 0⟩ "what should i do"
    (by with_unfolding_all decide)).1

/-! ## Ticker extraction (`generateResponse`, StockHelper.tsx lines 206–325)

`const symbolMatches = userMessage.toUpperCase().match(/\b([A-Z]{3,5})\b/g) || [];`
followed by filtering against the static `commonWords` stop-word set. -/

/-- The `commonWords` stop-word set, transcribed in source order (the
original `Set` literal contains duplicates; membership is unaffected). -/
def commonWords : List String :=
  [
    "IT", "IS", "IN", "ON", "AT", "TO", "OF", "OR", "AN", "AS",
    "BY", "DO", "GO", "HE", "IF", "ME", "MY", "NO", "OK", "SO",
    "UP", "US", "WE", "AM", "BE", "HA", "HI", "HM", "ID", "IM",
    "LA", "LO", "MA", "OH", "OW", "OX", "THE", "AND", "FOR", "ARE",
    "BUT", "NOT", "YOU", "ALL", "CAN", "HAD", "HER", "HIS", "WAS", "ONE",
    "OUR", "OUT", "HOW", "BUY", "SELL", "NOW", "TODAY", "WHAT", "SHOULD", "ABOUT",
    "TELL", "SHOW", "MAKE", "HAVE", "WHERE", "WHY", "THEM", "INTO", "WANT", "WITH",
    "THIS", "THAT", "FROM", "WILL", "WOULD", "COULD", "JUST", "LIKE", "SOME", "ANY",
    "WHEN", "YOUR", "BEEN", "MORE", "ALSO", "THEY", "THAN", "THEN", "ONLY", "COME",
    "MADE", "FIND", "HERE", "THERE", "MANY", "GIVE", "GOOD", "MOST", "VERY", "OVER",
    "SUCH", "TAKE", "MUCH", "WELL", "BACK", "TURN", "EVEN", "STILL", "NEED", "HELP",
    "HIGH", "YEAR", "EACH", "DOES", "LOOK", "BEST", "KEEP", "MUST", "WENT", "KNOW",
    "LONG", "TIME", "ABLE", "AFTER", "BEFORE", "BEING", "BOTH", "CALL", "CASE", "COULD",
    "DOWN", "EVEN", "FACT", "FEEL", "FEW", "GET", "GO", "GOT", "GREAT", "GROUP",
    "HAND", "HEAD", "HOME", "HOUSE", "IDEA", "IF", "KEEP", "KIND", "KNOW", "LAST",
    "LATE", "LEFT", "LET", "LIFE", "LINE", "LIVE", "LOVE", "MAN", "MAY", "MEAN",
    "MEN", "MIGHT", "MIND", "MOVE", "NAME", "NEW", "NEXT", "NIGHT", "NO", "NUMBER",
    "OF", "OFF", "OLD", "ONCE", "OPEN", "ORDER", "OTHER", "OWN", "PART", "PARTY",
    "PAST", "PAY", "PEOPLE", "PLACE", "PLAN", "PLAY", "POINT", "POWER", "PUT", "QUESTION",
    "READ", "REAL", "RIGHT", "RUN", "SAID", "SAME", "SAY", "SEE", "SEEM", "SET",
    "SHE", "SIDE", "SINCE", "SMALL", "SO", "SOMETHING", "STATE", "STILL", "STORY", "STUDY",
    "SURE", "SYSTEM", "TELL", "THESE", "THING", "THINK", "THOSE", "THOUGH", "THREE", "THROUGH",
    "TOO", "TRY", "TWO", "UNDER", "UP", "USE", "USED", "WAY", "WE", "WEEK",
    "WHILE", "WHO", "WORD", "WORK", "WORLD", "WRITE", "YEARS", "YES", "YET", "YOUNG",
    "WHICH", "WHOSE", "WHOM", "WHATEVER", "WHENEVER", "WHEREVER", "WHETHER", "MYSELF", "YOURSELF", "HIMSELF",
    "HERSELF", "ITSELF", "THEMSELVES", "SOMEONE", "ANYONE", "EVERYONE", "NOBODY", "CHEAP", "EURO", "EUROS",
    "DOLLAR", "DOLLARS", "POUND", "POUNDS", "YEN", "YUAN", "STOCK", "STOCKS", "TRADE", "TRADES",
    "TRADING", "TRADER", "TRADERS", "SAFE", "SAFER", "SAFEST", "RISK", "RISKS", "RISKY", "RISKIER",
    "GROW", "GROWS", "GROWTH", "GROWING", "GROWN", "INVEST", "INVESTS", "INVESTED", "INVESTING", "INVESTOR",
    "INVESTORS", "INVESTMENT", "INVESTMENTS", "ASIA", "ASIAN", "EUROPE", "EUROPEAN", "AMERICA", "AMERICAN", "AFRICA",
    "AFRICAN", "CHINA", "CHINESE", "JAPAN", "JAPANESE", "KOREA", "KOREAN", "INDIA", "INDIAN", "BRAZIL",
    "BRAZILIAN", "MEXICO", "MEXICAN", "CANADA", "CANADIAN", "UK", "USA", "EU", "GERMAN", "GERMANY",
    "FRENCH", "FRANCE", "ITALY", "ITALIAN", "SPAIN", "SPANISH", "DUTCH", "SWISS", "AUSTRALIAN", "RUSSIA",
    "RUSSIAN", "PORTFOLIO", "PORTFOLIOS", "MONEY", "CASH", "BUDGET", "BUDGETS", "PROFIT", "PROFITS", "PROFITABLE",
    "GAIN", "GAINS", "LOSS", "LOSSES", "LOSING", "PRICE", "PRICES", "PRICED", "PRICING", "COST",
    "COSTS", "COSTING", "BULL", "BULLS", "BULLISH", "BEAR", "BEARS", "BEARISH", "MARKET", "MARKETS",
    "TREND", "TRENDS", "TRENDING", "CHART", "CHARTS", "CHARTING", "VOLUME", "VOLUMES", "SHARE", "SHARES",
    "SHARING", "SHAREHOLDER", "DIVIDEND", "DIVIDENDS", "YIELD", "YIELDS", "YIELDING", "INCOME", "INCOMES", "RETURN",
    "RETURNS", "RETURNING", "VALUE", "VALUES", "VALUED", "VALUATION", "FEE", "FEES", "TAX", "TAXES",
    "TAXED", "LONG", "SHORT", "HOLD", "HOLDING", "HOLDINGS", "HELD", "CALL", "CALLS", "PUT",
    "PUTS", "OPTION", "OPTIONS", "BOND", "BONDS", "FUND", "FUNDS", "FUNDING", "ASSET", "ASSETS",
    "EQUITY", "EQUITIES", "DEBT", "DEBTS", "MARGIN", "MARGINS", "LEVERAGE", "LEVERAGED", "FOREX", "CURRENCY",
    "CURRENCIES", "EXCHANGE", "EXCHANGES", "GREEN", "GREENER", "GREENEST", "CLEAN", "CLEANER", "CLEANEST", "ENERGY",
    "ENERGIES", "SOLAR", "WIND", "HYDRO", "NUCLEAR", "CRYPTO", "CRYPTOS", "COIN", "COINS", "TOKEN",
    "TOKENS", "BLOCKCHAIN", "TECH", "TECHNOLOGY", "TECHNOLOGIES", "TECHNICAL", "SOFTWARE", "HARDWARE", "CHIP", "CHIPS",
    "SEMICONDUCTOR", "SEMICONDUCTORS", "SECTOR", "SECTORS", "INDUSTRY", "INDUSTRIES", "INDUSTRIAL", "HEALTH", "HEALTHCARE", "PHARMA",
    "PHARMACEUTICAL", "BIOTECH", "BANK", "BANKS", "BANKING", "FINANCE", "FINANCIAL", "FINTECH", "REAL", "ESTATE",
    "PROPERTY", "PROPERTIES", "REIT", "REITS", "RETAIL", "CONSUMER", "CONSUMERS", "LUXURY", "AUTO", "AUTOMOTIVE",
    "CAR", "CARS", "VEHICLE", "VEHICLES", "EV", "EVS", "OIL", "GAS", "PETROLEUM", "NATURAL",
    "GOLD", "SILVER", "COPPER", "METAL", "METALS", "MINING", "FOOD", "FOODS", "AGRICULTURE", "FARMING",
    "START", "STARTS", "STARTED", "STARTING", "STOP", "STOPS", "STOPPED", "BEGIN", "BEGINS", "BEGAN",
    "BEGINNING", "END", "ENDS", "ENDED", "ENDING", "FIRST", "SECOND", "THIRD", "FOURTH", "FIFTH",
    "LAST", "LEARN", "LEARNS", "LEARNED", "LEARNING", "TEACH", "TEACHES", "TEACHING", "GUIDE", "GUIDES",
    "GUIDED", "GUIDING", "TIPS", "TIP", "ADVICE", "ADVISE", "CREATE", "CREATES", "CREATED", "CREATING",
    "BUILD", "BUILDS", "BUILT", "BUILDING", "SUGGEST", "SUGGESTS", "SUGGESTED", "SUGGESTION", "SUGGESTIONS", "RECOMMEND",
    "RECOMMENDS", "RECOMMENDED", "RECOMMENDATION", "LIST", "LISTS", "LISTED", "LISTING", "DISPLAY", "DISPLAYS", "DISPLAYED",
    "ADD", "ADDS", "ADDED", "ADDING", "REMOVE", "REMOVES", "REMOVED", "REMOVING", "WATCH", "WATCHES",
    "WATCHED", "WATCHING", "TRACK", "TRACKS", "TRACKED", "TRACKING", "ANALYZE", "ANALYZES", "ANALYZED", "ANALYSIS",
    "COMPARE", "COMPARES", "COMPARED", "COMPARISON", "GOOD", "BETTER", "BEST", "BAD", "WORSE", "WORST",
    "BIG", "BIGGER", "BIGGEST", "SMALL", "SMALLER", "SMALLEST", "HIGH", "HIGHER", "HIGHEST", "LOW",
    "LOWER", "LOWEST", "FAST", "FASTER", "FASTEST", "SLOW", "SLOWER", "SLOWEST", "EASY", "EASIER",
    "EASIEST", "HARD", "HARDER", "HARDEST", "QUICK", "QUICKER", "QUICKEST", "SIMPLE", "SIMPLER", "SIMPLEST",
    "NEW", "NEWER", "NEWEST", "OLD", "OLDER", "OLDEST", "TOP", "BOTTOM", "MIDDLE", "LEFT",
    "RIGHT", "CENTER", "FREE", "PAID", "PREMIUM", "BASIC", "ADVANCED", "EXPERT", "POPULAR", "COMMON",
    "RARE", "UNIQUE", "SPECIAL", "STABLE", "VOLATILE", "STEADY", "AGGRESSIVE", "CONSERVATIVE", "PASSIVE", "ACTIVE",
    "MONTHLY", "WEEKLY", "DAILY", "YEARLY", "ANNUAL", "QUARTERLY", "PLEASE", "THANK", "THANKS", "SORRY",
    "HELLO", "HI", "HEY", "BYE", "OKAY", "OK", "YES", "NO", "MAYBE", "WANT",
    "WANTS", "WANTED", "WANTING", "NEED", "NEEDS", "NEEDED", "NEEDING", "LIKE", "LIKES", "LIKED",
    "LIKING", "LOVE", "LOVES", "LOVED", "LOVING", "THINK", "THINKS", "THOUGHT", "THINKING", "BELIEVE",
    "BELIEVES", "BELIEVED", "HOPE", "HOPES", "HOPED", "HOPING", "WISH", "WISHES", "WISHED", "WISHING",
    "LOOKING", "TRYING", "GETTING", "GOING", "COMING", "TAKING", "MAKING", "DOING", "TODAY", "TOMORROW",
    "YESTERDAY", "WEEK", "MONTH", "YEAR", "DAY", "NIGHT", "NOW", "LATER", "SOON", "NEVER",
    "ALWAYS", "SOMETIMES", "OFTEN", "RARELY", "ABOUT", "AROUND", "BETWEEN", "THROUGH", "DURING", "BEFORE",
    "AFTER", "SINCE", "UNTIL", "REALLY", "ACTUALLY", "PROBABLY", "POSSIBLY", "DEFINITELY", "CERTAINLY", "PERHAPS"
  ]

/-- Does a token pass the `[A-Z]{3,5}` shape test: all uppercase letters,
length 3 to 5? -/
def goodTok (t : List Char) : Bool :=
  t.all isUpperCh && decide (3 ≤ t.length) && decide (t.length ≤ 5)

/-- The candidate ticker symbols of a message: the `\b[A-Z]{3,5}\b` matches
of the upper-cased message, minus the stop words
(`symbolMatches.filter(s => !commonWords.has(s))`). -/
def potentialSymbols (userMessage : String) : List String :=
  ((symScan false (upStr userMessage.data)).map (fun t => String.mk t)).filter
    (fun s => !(commonWords.contains s))

/-- The candidate set the claim describes, read literally: the uppercase
tokens of length 3–5 appearing in the raw message, minus the stop words. -/
def claimedTickersRaw (userMessage : String) : List String :=
  (((wordTokens userMessage.data).filter goodTok).map (fun t => String.mk t)).filter
    (fun s => !(commonWords.contains s))

set_option maxRecDepth 100000 in
/-- Claim C3 counterexample: the message "tell me about aapl" contains no
uppercase token at all, yet the code upper-cases the message before
extraction, so "aapl" becomes the candidate AAPL; the claimed candidate set
(uppercase tokens of the raw message) is empty and differs from the
computed one. -/
theorem claimC3_counterexample :
    potentialSymbols "tell me about aapl" = ["AAPL"] ∧
    claimedTickersRaw "tell me about aapl" = [] ∧
    potentialSymbols "tell me about aapl" ≠ claimedTickersRaw "tell me about aapl" := by
  refine ⟨by with_unfolding_all decide, by with_unfolding_all decide,
    by with_unfolding_all decide⟩

/-- Uppercase letters are word characters. -/
theorem upper_isWord {c : Char} (h : isUpperCh c = true) : isWordCh c = true := by
  unfold isWordCh isAlphaCh
  rw [h]
  simp

/-- After dropping the leading word run, the next character (if any) is not
a word character. -/
theorem boundary_dropWhile_word (l : List Char) :
    boundaryAfter (l.dropWhile isWordCh) = true := by
  induction l with
  | nil => rfl
  | cons c cs ih =>
    by_cases h : isWordCh c
    · rw [List.dropWhile_cons_of_pos h]
      exact ih
    · rw [List.dropWhile_cons_of_neg h]
      unfold boundaryAfter
      simp only [Bool.not_eq_true'] at h
      simp [h]

/-- Dropping the length of the `takeWhile` prefix is `dropWhile`. -/
theorem drop_takeWhile_eq_dropWhile (p : Char → Bool) (l : List Char) :
    l.drop (l.takeWhile p).length = l.dropWhile p := by
  induction l with
  | nil => rfl
  | cons c cs ih =>
    by_cases h : p c
    · rw [List.takeWhile_cons_of_pos h, List.dropWhile_cons_of_pos h,
        List.length_cons, List.drop_succ_cons]
      exact ih
    · rw [List.takeWhile_cons_of_neg h, List.dropWhile_cons_of_neg h]
      rfl

/-- When the leading word run is entirely uppercase, the uppercase run and
the word run coincide. -/
theorem takeWhile_upper_of_all (l : List Char)
    (h : (l.takeWhile isWordCh).all isUpperCh = true) :
    l.takeWhile isUpperCh = l.takeWhile isWordCh := by
  induction l with
  | nil => rfl
  | cons c cs ih =>
    by_cases hw : isWordCh c
    · rw [List.takeWhile_cons_of_pos hw] at h
      simp only [List.all_cons, Bool.and_eq_true] at h
      rw [List.takeWhile_cons_of_pos hw, List.takeWhile_cons_of_pos h.1, ih h.2]
    · rw [List.takeWhile_cons_of_neg hw, List.takeWhile_cons_of_neg
        (fun hu => hw (upper_isWord hu))]

/-- Conversely, when the uppercase run ends at a word boundary, the word run
cannot extend past it. -/
theorem takeWhile_word_of_boundary (l : List Char)
    (h : boundaryAfter (l.drop (l.takeWhile isUpperCh).length) = true) :
    l.takeWhile isWordCh = l.takeWhile isUpperCh := by
  induction l with
  | nil => rfl
  | cons c cs ih =>
    by_cases hu : isUpperCh c
    · rw [List.takeWhile_cons_of_pos hu, List.length_cons, List.drop_succ_cons] at h
      rw [List.takeWhile_cons_of_pos hu, List.takeWhile_cons_of_pos (upper_isWord hu),
        ih h]
    · rw [List.takeWhile_cons_of_neg hu] at h
      simp only [List.length_nil, List.drop_zero] at h
      unfold boundaryAfter at h
      simp only [Bool.not_eq_true'] at h
      rw [List.takeWhile_cons_of_neg (by simp [h]), List.takeWhile_cons_of_neg hu]

/-- With the cursor just past a word character, the scanner skips an
all-word-character run without matching. -/
theorem symScan_skip_word : ∀ (w rest : List Char),
    (∀ c ∈ w, isWordCh c = true) → symScan true (w ++ rest) = symScan true rest := by
  intro w
  induction w with
  | nil => intro rest _; rfl
  | cons d w' ih =>
    intro rest hall
    rw [List.cons_append, symScan, dif_neg (by simp),
      hall d (List.mem_cons_self d w')]
    exact ih rest (fun c hc => hall c (List.mem_cons_of_mem d hc))

/-- The tokenizer likewise skips an all-word-character run when the cursor
is mid-word. -/
theorem wordTokensAux_skip_word : ∀ (w rest : List Char),
    (∀ c ∈ w, isWordCh c = true) → wordTokensAux true (w ++ rest) = wordTokensAux true rest := by
  intro w
  induction w with
  | nil => intro rest _; rfl
  | cons d w' ih =>
    intro rest hall
    rw [List.cons_append, wordTokensAux, dif_neg (by simp),
      hall d (List.mem_cons_self d w')]
    exact ih rest (fun c hc => hall c (List.mem_cons_of_mem d hc))

/-- Characters of a `takeWhile` prefix satisfy the predicate. -/
theorem mem_takeWhile_pred {p : Char → Bool} {c : Char} : ∀ {l : List Char},
    c ∈ l.takeWhile p → p c = true := by
  intro l
  induction l with
  | nil => intro h; exact absurd h (by simp)
  | cons d t ih =>
    intro h
    by_cases hd : p d
    · rw [List.takeWhile_cons_of_pos hd] at h
      rcases List.mem_cons.mp h with h | h
      · rw [h]; exact hd
      · exact ih h
    · rw [List.takeWhile_cons_of_neg hd] at h
      exact absurd h (by simp)

/-- The `\b[A-Z]{3,5}\b` global scan equals the word-run tokenization
filtered by the uppercase 3–5 shape test: the two ways of reading
"uppercase tokens of length 3 to 5" coincide. -/
theorem symScan_eq_wordTokens : ∀ (n : ℕ) (cs : List Char), cs.length ≤ n →
    ∀ (prev : Bool), symScan prev cs = (wordTokensAux prev cs).filter goodTok := by
  intro n
  induction n with
  | zero =>
    intro cs hcs prev
    have hnil : cs = [] := List.length_eq_zero.mp (Nat.le_zero.mp hcs)
    subst hnil
    rw [symScan, wordTokensAux]
    rfl
  | succ n ih =>
    intro cs hcs prev
    match cs with
    | [] =>
      rw [symScan, wordTokensAux]
      rfl
    | c :: cs' =>
      have hcs' : cs'.length ≤ n := by
        simp only [List.length_cons] at hcs
        omega
      cases prev with
      | true =>
        rw [symScan, dif_neg (by simp), wordTokensAux, dif_neg (by simp)]
        exact ih cs' hcs' (isWordCh c)
      | false =>
        by_cases hw : isWordCh c = true
        · by_cases hg : goodTok ((c :: cs').takeWhile isWordCh) = true
          · have hg' := hg
            unfold goodTok at hg'
            simp only [Bool.and_eq_true, decide_eq_true_eq] at hg'
            have hup : (c :: cs').takeWhile isUpperCh = (c :: cs').takeWhile isWordCh :=
              takeWhile_upper_of_all _ hg'.1.1
            have hbound : boundaryAfter
                ((c :: cs').drop ((c :: cs').takeWhile isUpperCh).length) = true := by
              rw [hup, drop_takeWhile_eq_dropWhile]
              exact boundary_dropWhile_word _
            have hcond : (!false && decide (3 ≤ ((c :: cs').takeWhile isUpperCh).length) &&
                decide (((c :: cs').takeWhile isUpperCh).length ≤ 5) &&
                boundaryAfter ((c :: cs').drop ((c :: cs').takeWhile isUpperCh).length)) = true := by
              rw [hup, drop_takeWhile_eq_dropWhile, boundary_dropWhile_word]
              simp only [Bool.not_false, Bool.true_and, Bool.and_true, Bool.and_eq_true,
                decide_eq_true_eq]
              exact ⟨hg'.1.2, hg'.2⟩
            rw [symScan, dif_pos hcond, wordTokensAux, dif_pos (by simp [hw]),
              List.filter_cons, hup]
            rw [if_pos (by rw [hg])]
            have hlen : 1 ≤ ((c :: cs').takeWhile isWordCh).length := by
              rw [List.takeWhile_cons_of_pos hw]
              simp
            have hrest : ((c :: cs').drop ((c :: cs').takeWhile isWordCh).length).length ≤ n := by
              simp only [List.length_drop, List.length_cons]
              simp only [List.length_cons] at hcs
              omega
            rw [ih _ hrest true]
          · have hcondF : ¬ ((!false && decide (3 ≤ ((c :: cs').takeWhile isUpperCh).length) &&
                decide (((c :: cs').takeWhile isUpperCh).length ≤ 5) &&
                boundaryAfter ((c :: cs').drop ((c :: cs').takeWhile isUpperCh).length)) = true) := by
              intro hcond
              simp only [Bool.not_false, Bool.true_and, Bool.and_eq_true,
                decide_eq_true_eq] at hcond
              have hwu : (c :: cs').takeWhile isWordCh = (c :: cs').takeWhile isUpperCh :=
                takeWhile_word_of_boundary _ hcond.2
              apply hg
              unfold goodTok
              rw [hwu]
              simp only [Bool.and_eq_true, decide_eq_true_eq]
              refine ⟨⟨List.all_eq_true.mpr (fun c hc => mem_takeWhile_pred hc), hcond.1.1⟩,
                hcond.1.2⟩
            rw [symScan, dif_neg hcondF, hw, wordTokensAux, dif_pos (by simp [hw]),
              List.filter_cons, if_neg hg]
            have hsplit : cs' = cs'.takeWhile isWordCh ++ cs'.dropWhile isWordCh :=
              (List.takeWhile_append_dropWhile isWordCh cs').symm
            have hskip : symScan true cs' = symScan true (cs'.dropWhile isWordCh) := by
              conv_lhs => rw [hsplit]
              exact symScan_skip_word _ _ (fun c hc => mem_takeWhile_pred hc)
            have hrest : (c :: cs').drop ((c :: cs').takeWhile isWordCh).length =
                cs'.dropWhile isWordCh := by
              rw [drop_takeWhile_eq_dropWhile, List.dropWhile_cons_of_pos hw]
            rw [hskip, hrest]
            have hlen : (cs'.dropWhile isWordCh).length ≤ n := by
              have : (cs'.dropWhile isWordCh).length ≤ cs'.length := by
                rw [← drop_takeWhile_eq_dropWhile]
                simp [List.length_drop]
              omega
            exact ih _ hlen true
        · have hcup : isUpperCh c = false := by
            rcases hcu : isUpperCh c with _ | _
            · rfl
            · exact absurd (upper_isWord hcu) hw
          rw [symScan, dif_neg (by
              rw [List.takeWhile_cons_of_neg (by simp [hcup])]
              simp), wordTokensAux, dif_neg (by simp [hw])]
          exact ih cs' hcs' (isWordCh c)

/-- Claim C3 (amended): the candidate ticker set is exactly the set of 3–5
letter uppercase tokens of the *upper-cased* message (equivalently: the
alphabetic tokens of the raw message of length 3–5, matched
case-insensitively and upper-cased), minus the stop-word dictionary; in
particular a stop-word token is never treated as a ticker candidate. -/
theorem claimC3_tickerExtraction (userMessage : String) :
    potentialSymbols userMessage =
      (((wordTokens (upStr userMessage.data)).filter goodTok).map
        (fun t => String.mk t)).filter (fun s => !(commonWords.contains s)) ∧
    ∀ s ∈ potentialSymbols userMessage, ¬ s ∈ commonWords := by
  constructor
  · unfold potentialSymbols wordTokens
    rw [symScan_eq_wordTokens (upStr userMessage.data).length _ (le_refl _) false]
  · intro s hs
    unfold potentialSymbols at hs
    have hp := List.of_mem_filter hs
    simp only [Bool.not_eq_true'] at hp
    intro hmem
    rw [List.contains_eq_any_beq] at hp
    simp only [List.any_eq_false] at hp
    exact absurd (by simp : (s == s) = true) (by simpa using hp s hmem)

set_option maxRecDepth 100000 in
/-- Witness for `claimC3_tickerExtraction` on "Analyze AAPL": ANALYZE is a
stop word and AAPL the single candidate, which is not a stop word. -/
theorem claimC3_tickerExtraction_witness : ¬ "AAPL" ∈ commonWords :=
  (claimC3_tickerExtraction "Analyze AAPL").2 "AAPL" (by with_unfolding_all decide)

/-! ## Strategy and knowledge handlers (StockHelper.tsx lines 782–1010)

Both run on the lower-cased message.  Their response texts are fixed
templates; the model keeps the dispatch (whether they fire, and on which
topic/themes) and abstracts the prose. -/

/-- The themes `handleStrategyQuestion` detects (each appends one fixed
section to the response). -/
structure StrategyThemes where
  european : Bool
  asian : Bool
  cheap : Bool
  tech : Bool
  dividend : Bool
  growth : Bool
  safe : Bool
  crypto : Bool
  green : Bool
deriving DecidableEq, Repr

/-- Test for `/eu\b/`: an occurrence of "eu" ending at a word boundary. -/
def euBoundaryTest : List Char → Bool
  | [] => false
  | c :: cs =>
    (litAt ['e', 'u'] (c :: cs) && boundaryAfter ((c :: cs).drop 2)) || euBoundaryTest cs

/-- Test for `/under\s*\$?\d+/`. -/
def underAmountAt (cs : List Char) : Option Unit :=
  (litM "under" cs).bind (fun cs₁ =>
    let cs₂ := dropSpaces cs₁
    let cs₃ := match cs₂ with
      | '$' :: rest => rest
      | _ => cs₂
    match cs₃ with
    | d :: _ => if isDigitCh d then some () else none
    | [] => none)

/-- Position matcher for
`/(make|create|build|suggest|recommend|give)\s*(me\s*)?(a\s*)?(portfolio|stocks|investments)/i`. -/
def stratReqAt (cs : List Char) : Option Unit :=
  tryAlts ["make", "create", "build", "suggest", "recommend", "give"] cs (fun cs₁ =>
    let cs₂ := dropSpaces cs₁
    let step3 : List Char → Option Unit := fun cs₄ =>
      tryAlts ["portfolio", "stocks", "investments"] cs₄ (fun _ => some ())
    let step2 : List Char → Option Unit := fun cs₃ =>
      ((litM "a" cs₃).bind (fun cs' => step3 (dropSpaces cs'))) <|> step3 cs₃
    ((litM "me" cs₂).bind (fun cs' => step2 (dropSpaces cs'))) <|> step2 cs₂)

/-- `isPortfolioRequest` test. -/
def isPortfolioRequest (msg : List Char) : Bool := (scanM stratReqAt msg).isSome

/-- `isStrategyQuestion` test
(`/(cheap|budget|low.?cost|affordable|european|europe|asian|asia|tech|growth|dividend|safe|conservative|aggressive|risky|beginner)/i`). -/
def isStrategyQuestion (msg : List Char) : Bool :=
  hasSubS "cheap" msg || hasSubS "budget" msg || dotQTest "low" "cost" msg ||
    hasSubS "affordable" msg || hasSubS "european" msg || hasSubS "europe" msg ||
    hasSubS "asian" msg || hasSubS "asia" msg || hasSubS "tech" msg ||
    hasSubS "growth" msg || hasSubS "dividend" msg || hasSubS "safe" msg ||
    hasSubS "conservative" msg || hasSubS "aggressive" msg || hasSubS "risky" msg ||
    hasSubS "beginner" msg

/-- The themes record, one regex test per section. -/
def strategyThemesOf (msg : List Char) : StrategyThemes :=
  { european := hasSubS "europe" msg || hasSubS "european" msg || euBoundaryTest msg ||
      hasSubS "euro" msg
    asian := hasSubS "asia" msg || hasSubS "asian" msg || hasSubS "china" msg ||
      hasSubS "japan" msg || hasSubS "korea" msg
    cheap := hasSubS "cheap" msg || hasSubS "budget" msg || dotQTest "low" "cost" msg ||
      hasSubS "affordable" msg || hasSubS "penny" msg || (scanM underAmountAt msg).isSome
    tech := hasSubS "tech" msg || hasSubS "technology" msg || hasSubS "ai" msg ||
      hasSubS "semiconductor" msg || hasSubS "software" msg
    dividend := hasSubS "dividend" msg || hasSubS "income" msg || hasSubS "yield" msg ||
      hasSubS "passive" msg
    growth := hasSubS "growth" msg || hasSubS "aggressive" msg || dotQTest "high" "return" msg
    safe := hasSubS "safe" msg || hasSubS "conservative" msg || hasSubS "stable" msg ||
      dotQTest "low" "risk" msg || hasSubS "beginner" msg
    crypto := hasSubS "crypto" msg || hasSubS "bitcoin" msg || hasSubS "ethereum" msg
    green := hasSubS "green" msg || hasSubS "sustainable" msg || hasSubS "esg" msg ||
      hasSubS "clean" msg || hasSubS "energy" msg }

/-- `handleStrategyQuestion`: fires (with its themes) iff the portfolio
request or strategy keyword test passes; otherwise `null`. -/
def handleStrategyQuestion (msg : List Char) : Option StrategyThemes :=
  if !isPortfolioRequest msg && !isStrategyQuestion msg then none
  else some (strategyThemesOf msg)

/-- One tag per fixed knowledge answer in `handleKnowledgeQuestion`. -/
inductive KnowledgeTag where
  | stockDef | etfDef | dividendDef | optionsDef | cryptoDef | bullBear
  | shortSelling | leverageDef | peDef
  | howStart | howCharts | howPick | howRisk
  | whenBuy | whenSell | marketHours
  | whyDrop | whyLose
  | bestBroker | bestStocks
  | shouldDayTrade | shouldCrypto
  | stocksVsEtfs | investVsTrade
deriving DecidableEq, Repr

/-- The "how to" question group. -/
def knowledgeHow (msg : List Char) : Option KnowledgeTag :=
  if hasSubS "how to" msg || hasSubS "how do" msg || hasSubS "how can" msg then
    if hasSubS "start" msg || hasSubS "begin" msg || hasSubS "first" msg then
      some KnowledgeTag.howStart
    else if hasSubS "read chart" msg || hasSubS "technical analysis" msg ||
        hasSubS "chart" msg then some KnowledgeTag.howCharts
    else if hasSubS "pick stock" msg || hasSubS "choose stock" msg ||
        hasSubS "find stock" msg then some KnowledgeTag.howPick
    else if dotQTest "stop" "loss" msg || hasSubS "protect" msg ||
        hasSubS "risk manage" msg then some KnowledgeTag.howRisk
    else none
  else none

/-- The "when" question group. -/
def knowledgeWhen (msg : List Char) : Option KnowledgeTag :=
  if hasSubS "when" msg || hasSubS "best time" msg then
    if hasSubS "buy" msg || hasSubS "enter" msg then some KnowledgeTag.whenBuy
    else if hasSubS "sell" msg || hasSubS "exit" msg || hasSubS "take profit" msg then
      some KnowledgeTag.whenSell
    else if hasSubS "market open" msg || hasSubS "market close" msg ||
        hasSubS "trading hours" msg then some KnowledgeTag.marketHours
    else none
  else none

/-- The "why" question group. -/
def knowledgeWhy (msg : List Char) : Option KnowledgeTag :=
  if hasSubS "why" msg then
    if verbThenObj ["stock"] ["down", "drop", "fall", "crash"] msg then
      some KnowledgeTag.whyDrop
    else if hasSubS "lose money" msg || hasSubS "losing" msg then
      some KnowledgeTag.whyLose
    else none
  else none

/-- The "best/top/worst" question group. -/
def knowledgeBest (msg : List Char) : Option KnowledgeTag :=
  if hasSubS "best" msg || hasSubS "top" msg || hasSubS "worst" msg then
    if hasSubS "broker" msg || hasSubS "platform" msg || hasSubS "app" msg then
      some KnowledgeTag.bestBroker
    else if verbThenObj ["stock"] ["buy", "invest"] msg then some KnowledgeTag.bestStocks
    else none
  else none

/-- The "should I" question group. -/
def knowledgeShould (msg : List Char) : Option KnowledgeTag :=
  if hasSubS "should i" msg || hasSubS "is it worth" msg then
    if hasSubS "day trade" msg then some KnowledgeTag.shouldDayTrade
    else if hasSubS "crypto" msg || hasSubS "bitcoin" msg then
      some KnowledgeTag.shouldCrypto
    else none
  else none

/-- The "difference/vs" question group. -/
def knowledgeDiff (msg : List Char) : Option KnowledgeTag :=
  if hasSubS "difference" msg || hasSubS "vs" msg || hasSubS "versus" msg then
    if verbThenObj ["stock"] ["etf"] msg then some KnowledgeTag.stocksVsEtfs
    else if verbThenObj ["invest"] ["trad"] msg || verbThenObj ["trading"] ["invest"] msg then
      some KnowledgeTag.investVsTrade
    else none
  else none

/-- `handleKnowledgeQuestion`: the "what is" group, falling through group by
group to `null` (each group only fires when one of its topic tests
matches). -/
def handleKnowledgeQuestion (msg : List Char) : Option KnowledgeTag :=
  (if hasSubS "what is" msg || hasSubS "what are" msg || hasSubS "what's" msg ||
      hasSubS "explain" msg || hasSubS "define" msg then
    if hasSubS "stock" msg || hasSubS "share" msg then some KnowledgeTag.stockDef
    else if hasSubS "etf" msg then some KnowledgeTag.etfDef
    else if hasSubS "dividend" msg then some KnowledgeTag.dividendDef
    else if hasSubS "option" msg || hasSubS "call" msg || hasSubS "put" msg then
      some KnowledgeTag.optionsDef
    else if hasSubS "crypto" msg || hasSubS "bitcoin" msg || hasSubS "blockchain" msg then
      some KnowledgeTag.cryptoDef
    else if hasSubS "bear" msg || hasSubS "bull" msg then some KnowledgeTag.bullBear
    else if hasSubS "short" msg || hasSubS "shorting" msg then
      some KnowledgeTag.shortSelling
    else if hasSubS "leverage" msg || hasSubS "margin" msg then
      some KnowledgeTag.leverageDef
    else if hasSubS "pe ratio" msg || hasSubS "p/e" msg then some KnowledgeTag.peDef
    else none
  else none) <|> knowledgeHow msg <|> knowledgeWhen msg <|> knowledgeWhy msg <|>
    knowledgeBest msg <|> knowledgeShould msg <|> knowledgeDiff msg

/-! ## `generateResponse` (StockHelper.tsx lines 163–364)

The intent cascade.  Parameters stand for the effects the method uses: the
engine's quote map (`market`), the result of the `updateMarketData` fetch
(`fetched`, `none` = the caught fetch failure), the tip
`getRandomTip` draws (`tip`), and the conversation context.  Branches whose
full response text no claim inspects are tagged constructors carrying the
data the generator reads; the help and clarification texts are modelled
verbatim. -/

/-- The engine's `marketData` map as an association list. -/
abbrev MarketState : Type := List (String × MarketData)

/-- The `tips` array of `getRandomTip`. -/
def tips : List String :=
  ["Never invest more than you can afford to lose.",
   "Diversification reduces risk but also limits gains.",
   "The best time to buy is when others are fearful.",
   "Set stop-losses before entering any trade.",
   "Past performance doesn't guarantee future results.",
   "Compound interest is the 8th wonder of the world.",
   "Buy the rumor, sell the news.",
   "Time in the market beats timing the market."]

/-- `getHelpResponse`, with the drawn tip interpolated at the end. -/
def getHelpResponse (tip : String) : String :=
  "👋 How can I help you today?\n\n**Try asking:**\n• \"How's the market?\" - Get market overview\n• \"Analyze AAPL\" - Deep stock analysis\n• \"Add NVDA to watchlist\" - Track a stock\n• \"Make a tech portfolio\" - Get stock suggestions\n• \"What is an ETF?\" - Learn concepts\n• \"I have $100, where to invest?\" - Get advice\n\n💡 **Tip:** " ++ tip

/-- The fixed clarification reply for underspecified commands. -/
def clarifyResponse : String :=
  "🤔 I need more details! What would you like me to do?\n\n**Examples:**\n• \"Make a tech portfolio\"\n• \"Add AAPL to watchlist\"\n• \"Show market overview\"\n• \"Analyze NVDA\"\n\nWhat would you like?"

/-- The filler acknowledgements of the degenerate-input test
(`/^(ok|yes|no|sure|yep|nope|yeah|nah|fine|cool|nice|great|thanks|thx|ty|k|kk)$/i`). -/
def fillerWords : List String :=
  ["ok", "yes", "no", "sure", "yep", "nope", "yeah", "nah", "fine", "cool",
   "nice", "great", "thanks", "thx", "ty", "k", "kk"]

/-- Anchored test for
`/^(make|do|create|build|show|get)\s*(it|this|that|one|some)?\.?$/i`. -/
def isVagueCmd (cs : List Char) : Bool :=
  (tryAlts ["make", "do", "create", "build", "show", "get"] cs (fun cs₁ =>
    let cs₂ := dropSpaces cs₁
    let endOpt : List Char → Option Unit := fun cs₃ =>
      if cs₃ = [] || cs₃ = ['.'] then some () else none
    (tryAlts ["it", "this", "that", "one", "some"] cs₂ (fun cs₃ => endOpt cs₃)) <|>
      endOpt cs₂)).isSome

/-- The `hasTarget` test
(`/(into|make|become|get|reach|turn.*into|want.*to be|goal)/i`). -/
def investHasTarget (msg : List Char) : Bool :=
  hasSubS "into" msg || hasSubS "make" msg || hasSubS "become" msg ||
    hasSubS "get" msg || hasSubS "reach" msg || verbThenObj ["turn"] ["into"] msg ||
    verbThenObj ["want"] ["to be"] msg || hasSubS "goal" msg

/-- The `hasMoney` test (`moneyWords.some(w => msg.includes(w))`). -/
def investHasMoney (msg : List Char) : Bool :=
  hasSubS "euro" msg || hasSubS "dollar" msg || hasSubS "€" msg || hasSubS "$" msg

/-- `Map.set` over the association-list quote map. -/
def insertQuote (m : MarketState) (k : String) (q : MarketData) : MarketState :=
  if (List.any m (fun p => p.1 = k)) then
    List.map (fun p : String × MarketData => if p.1 = k then (k, q) else p) m
  else m ++ [(k, q)]

/-- `updateMarketData`: merge the fetched quotes into the engine map, keyed
by upper-cased symbol; a failed fetch (`none`) keeps the cached map. -/
def updateMarketData (market : MarketState) (fetched : Option (List MarketData)) :
    MarketState :=
  match fetched with
  | none => market
  | some quotes => quotes.foldl (fun m item => insertQuote m (upperS item.symbol) item) market

/-- The response of one chat turn: fully modelled texts for the degenerate
branches, tagged generator calls (carrying the data they read) for the
rest. -/
inductive AiResponse where
  | text (s : String)
  | invest (adv : InvestmentAdvice)
  | strategy (t : StrategyThemes)
  | knowledge (k : KnowledgeTag)
  | deepStock (sym : String) (market : MarketState)
  | compareStocks (syms : List String) (market : MarketState)
  | overview (market : MarketState)
  | opportunities (market : MarketState)
  | riskView (market : MarketState)
  | cryptoView (market : MarketState)
  | sector (syms : List String) (name : String) (market : MarketState)
  | dynamicView (raw : String) (market : MarketState)
deriving DecidableEq

/-- The `generateResponse` cascade, in source order: degenerate input,
underspecified command, market refresh, investment-goal gate, strategy,
knowledge, ticker extraction (single / compare), topical fallbacks, dynamic
default. -/
def generateResponse (market : MarketState) (fetched : Option (List MarketData))
    (tip : String) (ctx : ConvContext) (userMessage : String) :
    AiResponse × ConvContext × MarketState :=
  let msg := trimStr (lowStr userMessage.data)
  if decide (msg.length < 5) || fillerWords.contains (String.mk msg) then
    (AiResponse.text (getHelpResponse tip), ctx, market)
  else if isVagueCmd msg then
    (AiResponse.text clarifyResponse, ctx, market)
  else
    let market₁ := updateMarketData market fetched
    if msg.any isDigitCh && investHasTarget msg && investHasMoney msg then
      let adv := getInvestmentAdvice ctx (String.mk msg)
      (AiResponse.invest adv, adv.ctxAfter, market₁)
    else match handleStrategyQuestion msg with
    | some t => (AiResponse.strategy t, ctx, market₁)
    | none =>
    match handleKnowledgeQuestion msg with
    | some k => (AiResponse.knowledge k, ctx, market₁)
    | none =>
      let tickers := potentialSymbols userMessage
      if tickers.length = 1 then (AiResponse.deepStock (tickers.headD "") market₁, ctx, market₁)
      else if 2 ≤ tickers.length || hasSubS "compare" msg || hasSubS "vs" msg then
        (AiResponse.compareStocks (tickers.take 4) market₁, ctx, market₁)
      else if hasSubS "market" msg || hasSubS "overview" msg || hasSubS "today" msg ||
          hasSubS "how" msg then
        (AiResponse.overview market₁, ctx, market₁)
      else if hasSubS "buy" msg || hasSubS "recommend" msg || hasSubS "opportunity" msg ||
          hasSubS "pick" msg then
        (AiResponse.opportunities market₁, ctx, market₁)
      else if hasSubS "risk" msg || hasSubS "volatil" msg || hasSubS "safe" msg ||
          hasSubS "danger" msg then
        (AiResponse.riskView market₁, ctx, market₁)
      else if hasSubS "crypto" msg || hasSubS "bitcoin" msg || hasSubS "btc" msg ||
          hasSubS "eth" msg then
        (AiResponse.cryptoView market₁, ctx, market₁)
      else if hasSubS "tech" msg || hasSubS "semiconductor" msg || hasSubS "chip" msg then
        (AiResponse.sector ["AAPL", "MSFT", "GOOGL", "NVDA", "META", "AMD"] "Technology"
          market₁, ctx, market₁)
      else (AiResponse.dynamicView userMessage market₁, ctx, market₁)

set_option maxRecDepth 40000 in
/-- Claim C6 counterexample: two runs on the message "hi" with identical
market state and context but different random tip draws produce different
reply strings — the help reply is not the same string on every run. -/
theorem claimC6_counterexample :
    (generateResponse [] none (tips.getD 0 "") ⟨0, 0⟩ "hi").1 ≠
      (generateResponse [] none (tips.getD 1 "") ⟨0, 0⟩ "hi").1 := by
  with_unfolding_all decide

/-- Claim C6 (amended): for "hi" and every message shorter than 5 characters
or equal to a filler acknowledgement, `generateResponse` returns the fixed
help template — fixed up to the randomly drawn trading tip appended at the
end — without consulting or modifying the cached market state or the
conversation context: two runs with different quote caches and fetch
results but the same tip draw produce identical replies. -/
theorem claimC6_helpResponse (market market' : MarketState)
    (fetched fetched' : Option (List MarketData)) (tip : String)
    (ctx : ConvContext) (userMessage : String)
    (h : (decide ((trimStr (lowStr userMessage.data)).length < 5) ||
      fillerWords.contains (String.mk (trimStr (lowStr userMessage.data)))) = true) :
    generateResponse market fetched tip ctx userMessage =
      (AiResponse.text (getHelpResponse tip), ctx, market) ∧
    (generateResponse market fetched tip ctx userMessage).1 =
      (generateResponse market' fetched' tip ctx userMessage).1 := by
  have e : ∀ (m : MarketState) (f : Option (List MarketData)),
      generateResponse m f tip ctx userMessage =
        (AiResponse.text (getHelpResponse tip), ctx, m) := by
    intro m f
    simp only [generateResponse]
    rw [if_pos h]
  exact ⟨e market fetched, by rw [e market fetched, e market' fetched']⟩

/-- A quote for the C6 witness market. -/
def vixQuote : MarketData :=
  { symbol := "VIX", name := "CBOE Volatility Index", price := 18, change := 1,
    changeRaw := 1, changePercent := 6, isPositive := true }

/-- Witness for `claimC6_helpResponse`: the reply to "hi" is the same with
an empty quote cache and with a cached VIX quote plus a fresh fetch. -/
theorem claimC6_helpResponse_witness :
    generateResponse [] none (tips.getD 0 "") ⟨0, 0⟩ "hi" =
      (AiResponse.text (getHelpResponse (tips.getD 0 "")), ⟨0, 0⟩, []) ∧
    (generateResponse [] none (tips.getD 0 "") ⟨0, 0⟩ "hi").1 =
      (generateResponse [("VIX", vixQuote)] (some [vixQuote]) (tips.getD 0 "")
        ⟨0, 0⟩ "hi").1 :=
  claimC6_helpResponse [] [("VIX", vixQuote)] none (some [vixQuote])
    (tips.getD 0 "") ⟨0, 0⟩ "hi" (by decide)
